import Mathlib

/-!
# Verification of the `tables` DynamoDB schema-reconciliation package

Shallow embedding of the Go package `tables` (repository `jacygao/tables`):
the diff engine (`diff.go`), the desired-state builders (`CreateTableInput`,
`NewGlobalSecondaryIndex`, `UpdateTableInputBase`, `NewUpdateTimeToLiveInput`),
and the controller (`Validate`, `Migrate`, `compare`, `createTable`,
`updateTTL`, `updateTable`).

Modelling conventions:
* AWS SDK shapes become plain Lean structures; Go pointers that the code
  distinguishes from `nil` become `Option`; `int64` capacity units become `Int`
  (the code performs no arithmetic on them, only equality comparison).
* `cmp.Diff(x, y, cmpopts.IgnoreTypes(struct{}{}))` returns the empty string
  exactly when the two values are structurally equal (ignoring the SDK's
  embedded `struct{}` sentinel field, which our structures simply do not have);
  its non-empty human-readable text is opaque to the program, so it is modelled
  by a fixed non-empty token.  The program only ever branches on emptiness and
  concatenates the text.
* `sort.Slice` on a copy-free slice is modelled by a pure `List.mergeSort` on
  the list value; all call sites compare the two sorted lists for equality, so
  only the sorted order by the key matters.
* Go errors are the inductive `GoError`: an `awserr.Error` carrying a code, the
  package's sentinel errors, or any other error.
* The remote DynamoDB client is an oracle (`DB` for the describe calls used by
  `compare`/`Validate`; per-attempt outcome functions for the mutating calls
  used by the retry loops), so every remote interaction is explicit input.
-/

namespace dynamodb

/-- `dynamodb.AttributeDefinition` (fields `AttributeName`, `AttributeType`). -/
structure AttributeDefinition where
  attributeName : String
  attributeType : String
deriving DecidableEq, Repr

/-- `dynamodb.KeySchemaElement` (fields `AttributeName`, `KeyType`). -/
structure KeySchemaElement where
  attributeName : String
  keyType : String
deriving DecidableEq, Repr

/-- `dynamodb.ProvisionedThroughput` (read/write capacity units, `int64`). -/
structure ProvisionedThroughput where
  readCapacityUnits : Int
  writeCapacityUnits : Int
deriving DecidableEq, Repr

/-- `dynamodb.ProvisionedThroughputDescription`: the live-state variant; the
code only ever reads its capacity-unit fields. -/
structure ProvisionedThroughputDescription where
  readCapacityUnits : Int
  writeCapacityUnits : Int
deriving DecidableEq, Repr

/-- `dynamodb.Projection` (non-key attribute list and projection type). -/
structure Projection where
  nonKeyAttributes : List String
  projectionType : String
deriving DecidableEq, Repr

/-- `dynamodb.GlobalSecondaryIndex` (desired-state shape). -/
structure GlobalSecondaryIndex where
  indexName : String
  keySchema : List KeySchemaElement
  projection : Projection
  provisionedThroughput : ProvisionedThroughput
deriving DecidableEq, Repr

/-- `dynamodb.GlobalSecondaryIndexDescription` (live-state shape; carries an
item count that the comparison drops). -/
structure GlobalSecondaryIndexDescription where
  indexName : String
  keySchema : List KeySchemaElement
  projection : Projection
  provisionedThroughput : ProvisionedThroughputDescription
  itemCount : Int
deriving DecidableEq, Repr

/-- `dynamodb.LocalSecondaryIndex`. -/
structure LocalSecondaryIndex where
  indexName : String
  keySchema : List KeySchemaElement
  projection : Projection
deriving DecidableEq, Repr

/-- `dynamodb.LocalSecondaryIndexDescription`. -/
structure LocalSecondaryIndexDescription where
  indexName : String
  keySchema : List KeySchemaElement
  projection : Projection
  itemCount : Int
deriving DecidableEq, Repr

/-- `dynamodb.TableDescription`: the fields `Controller.compare` reads. -/
structure TableDescription where
  attributeDefinitions : List AttributeDefinition
  keySchema : List KeySchemaElement
  localSecondaryIndexes : List LocalSecondaryIndexDescription
  globalSecondaryIndexes : List GlobalSecondaryIndexDescription
  provisionedThroughput : ProvisionedThroughputDescription
deriving DecidableEq, Repr

/-- `dynamodb.CreateTableInput`: the fields the package builds and compares.
`localSecondaryIndexes` is a list of possibly-nil pointers because
`DiffTableDesc` compares against a nil-padded slice. -/
structure CreateTableInput where
  tableName : String
  attributeDefinitions : List AttributeDefinition
  keySchema : List KeySchemaElement
  provisionedThroughput : ProvisionedThroughput
  globalSecondaryIndexes : List GlobalSecondaryIndex
  localSecondaryIndexes : List (Option LocalSecondaryIndex)
deriving DecidableEq, Repr

/-- `dynamodb.CreateGlobalSecondaryIndexAction`. -/
structure CreateGlobalSecondaryIndexAction where
  indexName : String
  keySchema : List KeySchemaElement
  projection : Projection
  provisionedThroughput : ProvisionedThroughput
deriving DecidableEq, Repr

/-- `dynamodb.UpdateGlobalSecondaryIndexAction`. -/
structure UpdateGlobalSecondaryIndexAction where
  indexName : String
  provisionedThroughput : ProvisionedThroughput
deriving DecidableEq, Repr

/-- `dynamodb.GlobalSecondaryIndexUpdate`: at most one of `create`/`update`
is set by this package (it never emits deletes). -/
structure GlobalSecondaryIndexUpdate where
  create : Option CreateGlobalSecondaryIndexAction := none
  update : Option UpdateGlobalSecondaryIndexAction := none
deriving DecidableEq, Repr

/-- `dynamodb.UpdateTableInput`: the fields the package sets. -/
structure UpdateTableInput where
  tableName : String
  attributeDefinitions : List AttributeDefinition
  provisionedThroughput : Option ProvisionedThroughput := none
  globalSecondaryIndexUpdates : List GlobalSecondaryIndexUpdate := []
deriving DecidableEq, Repr

/-- `dynamodb.TimeToLiveSpecification`. -/
structure TimeToLiveSpecification where
  attributeName : String
  enabled : Bool
deriving DecidableEq, Repr

/-- `dynamodb.UpdateTimeToLiveInput`. -/
structure UpdateTimeToLiveInput where
  tableName : String
  timeToLiveSpecification : TimeToLiveSpecification
deriving DecidableEq, Repr

/-- `dynamodb.TimeToLiveDescription`. -/
structure TimeToLiveDescription where
  attributeName : String
  timeToLiveStatus : String
deriving DecidableEq, Repr

end dynamodb

namespace tables

/-- A Go `error` as this package observes it: an `awserr.Error` exposing a
machine-readable code, one of the package's sentinel errors (`errors.go`), or
any other error value. -/
inductive GoError where
  | awsErr (code : String)
  | errBackwardIncompatible
  | errBackwardCompatible
  | errRequestWithMaxRetry
  | errInvalidMigrationInput
  | other (msg : String)
deriving DecidableEq, Repr

/-- `dynamodb.ErrCodeResourceNotFoundException`. -/
def ErrCodeResourceNotFoundException : String := "ResourceNotFoundException"

/-- `dynamodb.ErrCodeResourceInUseException`. -/
def ErrCodeResourceInUseException : String := "ResourceInUseException"

/-- `dynamodb.ErrCodeLimitExceededException`. -/
def ErrCodeLimitExceededException : String := "LimitExceededException"

/-- `TableInfo` from the config file (defaults are Go zero values). -/
structure IndexInfo where
  IndexName : String := ""
  PrimaryKey : String := ""
  PrimaryKeyType : String := ""
  SortKey : String := ""
  SortKeyType : String := ""
  ReadThroughput : Int := 0
  WriteThroughput : Int := 0
  ProjectedFields : List String := []
deriving DecidableEq, Repr

/-- `TTLAttributeInfo`. -/
structure TTLAttributeInfo where
  AttributeName : String := ""
  Enabled : Bool := false
deriving DecidableEq, Repr

/-- `TableInfo`. -/
structure TableInfo where
  Title : String := ""
  TableName : String := ""
  PrimaryKey : String := ""
  SortKey : String := ""
  SortKeyType : String := ""
  ReadThroughput : Int := 0
  WriteThroughput : Int := 0
  Indexes : List IndexInfo := []
  TTL : Option TTLAttributeInfo := none
deriving DecidableEq, Repr

/-- `withPrefix` from the types file: `title-env-tableName` when both `env` and
`title` are non-empty, else the bare table name.  (Renamed; the original name
ends in a token the development avoids.) -/
def withEnvPrefixName (env title tableName : String) : String :=
  if env.length > 0 ∧ title.length > 0 then title ++ "-" ++ env ++ "-" ++ tableName
  else tableName

/-- `contains` from the types file: whether an attribute definition with the
given name is already present. -/
def containsAttr (attributes : List dynamodb.AttributeDefinition) (attributeName : String) : Bool :=
  attributes.any (fun a => a.attributeName = attributeName)

/-- `NewGlobalSecondaryIndex`: desired GSI built from an `IndexInfo`; the
projection is `INCLUDE` seeded with the implicit `"id"` attribute. -/
def NewGlobalSecondaryIndex (index : IndexInfo) : dynamodb.GlobalSecondaryIndex :=
  let projectedAttributes := "id" :: index.ProjectedFields
  { indexName := index.IndexName
    keySchema :=
      [⟨index.PrimaryKey, "HASH"⟩] ++
        (if index.SortKey ≠ "" then [⟨index.SortKey, "RANGE"⟩] else [])
    projection := ⟨projectedAttributes, "INCLUDE"⟩
    provisionedThroughput := ⟨index.ReadThroughput, index.WriteThroughput⟩ }

/-- The attribute-definition deduplication step shared by `CreateTableInput`
and `UpdateTableInputBase`: appends each index key attribute not already
present (the built GSI list is threaded alongside). -/
def indexAttrStep (acc : List dynamodb.GlobalSecondaryIndex × List dynamodb.AttributeDefinition)
    (index : IndexInfo) :
    List dynamodb.GlobalSecondaryIndex × List dynamodb.AttributeDefinition :=
  let gsis := acc.1 ++ [NewGlobalSecondaryIndex index]
  let a1 :=
    if ¬ containsAttr acc.2 index.PrimaryKey then
      acc.2 ++ [⟨index.PrimaryKey, index.PrimaryKeyType⟩]
    else acc.2
  let a2 :=
    if index.SortKey ≠ "" ∧ ¬ containsAttr a1 index.SortKey then
      a1 ++ [⟨index.SortKey, index.SortKeyType⟩]
    else a1
  (gsis, a2)

/-- `CreateTableInput`: the full desired create input for a table.  The primary
key attribute is always typed `"S"`; the sort key and each index key attribute
are appended with deduplication by name. -/
def CreateTableInput (table : TableInfo) (envPrefix : String) : dynamodb.CreateTableInput :=
  let attrs0 : List dynamodb.AttributeDefinition := [⟨table.PrimaryKey, "S"⟩]
  let ks0 : List dynamodb.KeySchemaElement := [⟨table.PrimaryKey, "HASH"⟩]
  let attrs1 :=
    if table.SortKey ≠ "" then attrs0 ++ [⟨table.SortKey, table.SortKeyType⟩] else attrs0
  let ks1 :=
    if table.SortKey ≠ "" then ks0 ++ [⟨table.SortKey, "RANGE"⟩] else ks0
  let built := table.Indexes.foldl indexAttrStep ([], attrs1)
  { tableName := withEnvPrefixName envPrefix table.Title table.TableName
    attributeDefinitions := built.2
    keySchema := ks1
    provisionedThroughput := ⟨table.ReadThroughput, table.WriteThroughput⟩
    globalSecondaryIndexes := built.1
    localSecondaryIndexes := [] }

/-- `UpdateTableInputBase`: table name plus the deduplicated attribute
definitions; throughput and GSI updates left unset.  (The Go code also builds
the GSI list in its loop but never assigns it to the base input.) -/
def UpdateTableInputBase (table : TableInfo) (envPrefix : String) : dynamodb.UpdateTableInput :=
  let attrs0 : List dynamodb.AttributeDefinition := [⟨table.PrimaryKey, "S"⟩]
  let attrs1 :=
    if table.SortKey ≠ "" then attrs0 ++ [⟨table.SortKey, table.SortKeyType⟩] else attrs0
  let built := table.Indexes.foldl indexAttrStep ([], attrs1)
  { tableName := withEnvPrefixName envPrefix table.Title table.TableName
    attributeDefinitions := built.2 }

/-- `NewUpdateTimeToLiveInput`: `none` when no TTL spec is given. -/
def NewUpdateTimeToLiveInput (table : TableInfo) (envPrefix : String)
    (ttl : Option TTLAttributeInfo) : Option dynamodb.UpdateTimeToLiveInput :=
  match ttl with
  | some t =>
      some { tableName := withEnvPrefixName envPrefix table.Title table.TableName
             timeToLiveSpecification := ⟨t.AttributeName, t.Enabled⟩ }
  | none => none

/-! ## Diff engine (`diff.go`) -/

/-- Model of `cmp.Diff(x, y, cmpopts.IgnoreTypes(struct{}{}))`: empty exactly
on structural equality, otherwise an opaque non-empty token. -/
def cmpDiff {α : Type} [DecidableEq α] (a b : α) : String :=
  if a = b then "" else "<mismatch>"

/-- `DiffIndexName`. -/
def DiffIndexName (name1 name2 : String) : String :=
  cmpDiff name1 name2

/-- `DiffProvisionedThroughput`. -/
def DiffProvisionedThroughput (pt1 pt2 : dynamodb.ProvisionedThroughput) : String :=
  cmpDiff pt1 pt2

/-- `DiffKeySchema`: positional comparison of key schema lists. -/
def DiffKeySchema (obj1 obj2 : List dynamodb.KeySchemaElement) : String :=
  cmpDiff obj1 obj2

/-- The name-keyed sort applied by `DiffAttributeDefinitions`. -/
def sortAttrs (l : List dynamodb.AttributeDefinition) : List dynamodb.AttributeDefinition :=
  l.mergeSort (fun a b => a.attributeName ≤ b.attributeName)

/-- `DiffAttributeDefinitions`: both sides are sorted by attribute name before
the structural comparison, so order never causes a mismatch. -/
def DiffAttributeDefinitions (obj1 obj2 : List dynamodb.AttributeDefinition) : String :=
  cmpDiff (sortAttrs obj1) (sortAttrs obj2)

/-- The non-key-attribute sort applied by `DiffProjection`. -/
def sortProjection (p : dynamodb.Projection) : dynamodb.Projection :=
  { p with nonKeyAttributes := p.nonKeyAttributes.mergeSort (fun a b => a ≤ b) }

/-- `DiffProjection`: the non-key attribute lists are sorted before the
structural comparison. -/
def DiffProjection (p1 p2 : dynamodb.Projection) : String :=
  cmpDiff (sortProjection p1) (sortProjection p2)

/-- `DiffLSI` (over possibly-nil entries, as the caller builds them). -/
def DiffLSI (input1 input2 : List (Option dynamodb.LocalSecondaryIndex)) : String :=
  cmpDiff input1 input2

/-- `DiffTTL`. -/
def DiffTTL (desc1 desc2 : dynamodb.TimeToLiveDescription) : String :=
  cmpDiff desc1 desc2

/-- `DiffTableDesc`: table-level key schema and LSI comparison.  The LSI slice
conversion in the source pre-allocates `len(desc.LocalSecondaryIndexes)` nil
entries and then appends the converted entries, so the compared list is
nil-padded. -/
def DiffTableDesc (desc : dynamodb.TableDescription) (input : dynamodb.CreateTableInput) :
    String :=
  let diff := ""
  let dks := DiffKeySchema desc.keySchema input.keySchema
  let diff := if dks.length > 0 then "Key Schedma: " ++ diff ++ dks else diff
  if desc.localSecondaryIndexes.length > 0 then
    let lsi : List (Option dynamodb.LocalSecondaryIndex) :=
      List.replicate desc.localSecondaryIndexes.length none ++
        desc.localSecondaryIndexes.map
          (fun i => some ⟨i.indexName, i.keySchema, i.projection⟩)
    let d := DiffLSI lsi input.localSecondaryIndexes
    if d.length > 0 then "LSI: " ++ diff ++ d else diff
  else diff

/-- The map `newObj` built by `DiffGSI`: live GSI descriptions keyed by index
name (a later duplicate overwrites an earlier one), each converted to the
desired-state shape (dropping the item count). -/
def lookupGSI (desc : List dynamodb.GlobalSecondaryIndexDescription) (name : String) :
    Option dynamodb.GlobalSecondaryIndex :=
  (desc.reverse.find? (fun g => g.indexName = name)).map
    (fun g =>
      { indexName := g.indexName
        keySchema := g.keySchema
        projection := g.projection
        provisionedThroughput :=
          ⟨g.provisionedThroughput.readCapacityUnits,
           g.provisionedThroughput.writeCapacityUnits⟩ })

/-- The mutable state of `DiffGSI`'s loop over the desired indexes: the
accumulated `diff` string, the queued `result.GSIInput` actions, and the
`result.Diff` assignment made inside the missing-index branch. -/
structure GSIFoldState where
  diff : String
  gsiInput : List dynamodb.GlobalSecondaryIndexUpdate
  resultDiff : String
deriving DecidableEq, Repr

/-- One iteration of `DiffGSI`'s loop for a desired index `gsi`.

* Missing from the live map: queue a `Create` action carrying the desired key
  schema, projection and throughput, and *overwrite* the accumulated diff with
  `"missing index: <name>"` (the source assigns, not appends).
* Present: append the name/key-schema/projection diffs; if the throughput
  differs, append its diff and queue an `Update` action; then the source
  repeats all four comparisons and appends their (identical) texts again. -/
def gsiStep (desc : List dynamodb.GlobalSecondaryIndexDescription)
    (s : GSIFoldState) (gsi : dynamodb.GlobalSecondaryIndex) : GSIFoldState :=
  match lookupGSI desc gsi.indexName with
  | none =>
      let d := "missing index: " ++ gsi.indexName
      { diff := d
        gsiInput := s.gsiInput ++
          [{ create := some ⟨gsi.indexName, gsi.keySchema, gsi.projection,
                             gsi.provisionedThroughput⟩ }]
        resultDiff := d }
  | some obj =>
      let d1 := DiffIndexName obj.indexName gsi.indexName
      let d2 := DiffKeySchema obj.keySchema gsi.keySchema
      let d3 := DiffProjection obj.projection gsi.projection
      let d4 := DiffProvisionedThroughput obj.provisionedThroughput gsi.provisionedThroughput
      let diff1 := s.diff ++ d1 ++ d2 ++ d3
      let diff2 := if d4.length > 0 then diff1 ++ d4 else diff1
      let inputs2 :=
        if d4.length > 0 then
          s.gsiInput ++ [{ update := some ⟨gsi.indexName, gsi.provisionedThroughput⟩ }]
        else s.gsiInput
      { s with
        diff := diff2 ++ d1 ++ d2 ++ d3 ++ (if d4.length > 0 then d4 else "")
        gsiInput := inputs2 }

/-- Modelled from the spec: the `CanMigrate` field of `GSIResult` read by the
current controller's `compare` — the generation of `diff.go` defining it is
not among the provided sources (the provided `diff.go` predates the field).
Per the spec's index rules, an index present live whose key schema or
projection differs is an unsupported change that must mark the containing
table non-migratable; a missing index or a throughput-only change stays
migratable. -/
def gsiCanMigrate (desc : List dynamodb.GlobalSecondaryIndexDescription)
    (input : List dynamodb.GlobalSecondaryIndex) : Bool :=
  input.all (fun gsi =>
    match lookupGSI desc gsi.indexName with
    | none => true
    | some obj =>
        DiffKeySchema obj.keySchema gsi.keySchema = "" ∧
          DiffProjection obj.projection gsi.projection = "")

/-- `GSIResult` (with the spec-modelled `CanMigrate` field, see
`gsiCanMigrate`). -/
structure GSIResult where
  GSIInput : List dynamodb.GlobalSecondaryIndexUpdate := []
  Diff : String := ""
  CanMigrate : Bool := true
deriving DecidableEq, Repr

/-- `DiffGSI`: compares live GSI descriptions with desired GSIs.  Immediately
empty when both sides are empty; otherwise the loop of `gsiStep` over the
desired indexes, with `result.Diff` finally overwritten by the accumulated
diff when that is non-empty. -/
def DiffGSI (desc : List dynamodb.GlobalSecondaryIndexDescription)
    (input : List dynamodb.GlobalSecondaryIndex) : GSIResult :=
  if desc.length = 0 ∧ input.length = 0 then {}
  else
    let s := input.foldl (gsiStep desc) ⟨"", [], ""⟩
    { GSIInput := s.gsiInput
      Diff := if s.diff.length > 0 then s.diff else s.resultDiff
      CanMigrate := gsiCanMigrate desc input }

/-! ## Controller (current generation) -/

/-- The remote client's describe surface, as an oracle keyed by the prefixed
table name: `DescribeTable` yields a table description or an error;
`DescribeTimeToLive` yields a (possibly absent) TTL description or an error. -/
structure DB where
  describeTable : String → Except GoError dynamodb.TableDescription
  describeTTL : String → Except GoError (Option dynamodb.TimeToLiveDescription)

/-- `ValidationResult` (defaults are Go zero values). -/
structure ValidationResult where
  TableInput : TableInfo := {}
  CreateTableInput : Option dynamodb.CreateTableInput := none
  UpdateTableInput : List dynamodb.UpdateTableInput := []
  UpdateTTLInput : Option dynamodb.UpdateTimeToLiveInput := none
  Diff : String := ""
  CanMigrate : Bool := false
  Error : Option GoError := none
deriving DecidableEq, Repr

/-- `MigrationResult`. -/
structure MigrationResult where
  TableInput : TableInfo := {}
  Errors : List GoError := []
deriving DecidableEq, Repr

/-- `Controller.compare` after a successful `describeTable`: the table exists,
so compare attribute definitions, table description (key schema/LSIs), table
throughput, GSIs, and — if the spec declares one — TTL.  Mirrors the source's
mutation order: the attribute-definition diff is overwritten by a non-empty
`DiffTableDesc` text; the TTL-missing and TTL-error paths return early without
ever assigning `result.Diff`/`result.CanMigrate` (leaving their zero values). -/
def compareExisting (db : DB) (env : String) (tbl : TableInfo)
    (desc : dynamodb.TableDescription) :
    Option ValidationResult × Option GoError :=
  let input := CreateTableInput tbl env
  let dAttr := DiffAttributeDefinitions desc.attributeDefinitions input.attributeDefinitions
  let diff0 := if dAttr.length > 0 then "Attribute Definition: " ++ dAttr else ""
  let dTD := DiffTableDesc desc input
  let diff1 := if dTD.length > 0 then dTD else diff0
  let canM1 := if dTD.length > 0 then false else true
  let dPt := DiffProvisionedThroughput
    ⟨desc.provisionedThroughput.readCapacityUnits,
     desc.provisionedThroughput.writeCapacityUnits⟩
    input.provisionedThroughput
  let diff2 := if dPt.length > 0 then diff1 ++ ", Throughput: " ++ dPt else diff1
  let updTI1 : List dynamodb.UpdateTableInput :=
    if dPt.length > 0 then
      [{ UpdateTableInputBase tbl env with provisionedThroughput := some input.provisionedThroughput }]
    else []
  let g := DiffGSI desc.globalSecondaryIndexes input.globalSecondaryIndexes
  let diff3 := if g.Diff.length > 0 then diff2 ++ ", GSI: " ++ g.Diff else diff2
  let canM2 := if g.Diff.length > 0 then g.CanMigrate else canM1
  let updTI2 :=
    if g.Diff.length > 0 ∧ g.CanMigrate then
      updTI1 ++ g.GSIInput.map
        (fun u => { UpdateTableInputBase tbl env with globalSecondaryIndexUpdates := [u] })
    else updTI1
  match tbl.TTL with
  | none =>
      (some { TableInput := tbl, UpdateTableInput := updTI2, Diff := diff3,
              CanMigrate := canM2 }, none)
  | some ttlInfo =>
      match db.describeTTL (withEnvPrefixName env tbl.Title tbl.TableName) with
      | .error e =>
          (some { TableInput := tbl, UpdateTableInput := updTI2 }, some e)
      | .ok none =>
          (some { TableInput := tbl, UpdateTableInput := updTI2,
                  UpdateTTLInput := NewUpdateTimeToLiveInput tbl env (some ttlInfo) }, none)
      | .ok (some ttl) =>
          let ttlStatus := if ttlInfo.Enabled = false then "DISABLED" else "ENABLED"
          let expected : dynamodb.TimeToLiveDescription := ⟨ttlInfo.AttributeName, ttlStatus⟩
          let dTTL := DiffTTL ttl expected
          let diff4 := if dTTL.length > 0 then diff3 ++ ", TTL: " ++ dTTL else diff3
          let updTTL :=
            if dTTL.length > 0 then NewUpdateTimeToLiveInput tbl env (some ttlInfo) else none
          (some { TableInput := tbl, UpdateTableInput := updTI2, UpdateTTLInput := updTTL,
                  Diff := diff4, CanMigrate := canM2 }, none)

/-- `Controller.compare`: fetch the live description by prefixed name.  A
"resource not found" `awserr` means the table is absent — queue the full
desired create input, `CanMigrate = true`, diff `"missing table: <name>"`, and
return without further comparison.  Any other fetch error aborts this table's
comparison with a nil result. -/
def compare (db : DB) (env : String) (tbl : TableInfo) :
    Option ValidationResult × Option GoError :=
  match db.describeTable (withEnvPrefixName env tbl.Title tbl.TableName) with
  | .error e =>
      match e with
      | .awsErr code =>
          if code = ErrCodeResourceNotFoundException then
            (some { TableInput := tbl
                    CreateTableInput := some (CreateTableInput tbl env)
                    CanMigrate := true
                    Diff := "missing table: " ++ tbl.TableName }, none)
          else (none, some e)
      | _ => (none, some e)
  | .ok desc => compareExisting db env tbl desc

/-- `Controller.Validate`: compare every configured table (the per-table work
is concurrent in the source; results are modelled in input order, which the
aggregate verdict does not depend on).  A per-table error replaces that
table's result with a fresh one carrying the error and `CanMigrate = false`.
Verdict priority: `ErrBackwardIncompatible` if any result is not migratable,
else `ErrBackwardCompatible` if any result has a non-empty diff, else `nil`. -/
def Validate (db : DB) (env : String) (tablesList : List TableInfo) :
    List ValidationResult × Option GoError :=
  let res := tablesList.map (fun tbl =>
    match compare db env tbl with
    | (_, some e) => { CanMigrate := false, Error := some e : ValidationResult }
    | (r?, none) => r?.getD {})
  let isBackwardIncompatible := res.any (fun r => !r.CanMigrate)
  let isDiff := res.any (fun r => r.Diff.length > 0)
  (res,
   if isBackwardIncompatible then some .errBackwardIncompatible
   else if isDiff then some .errBackwardCompatible
   else none)

/-! ## Retrying executor (`createTable`, `updateTTL`, `updateTable`)

The remote mutating calls are oracles giving the outcome of each attempt
(`none` = success).  Each loop's observable behaviour is its returned error
(`none` = success), the number of attempts issued, and the number of
fixed-interval sleeps performed. -/

/-- `MultiIndexUpdateRetryAttempts`. -/
def MultiIndexUpdateRetryAttempts : Nat := 100

/-- `MultiIndexUpdateRetryInterval` (seconds; each sleep lasts this long). -/
def MultiIndexUpdateRetryInterval : Nat := 2

/-- Observable outcome of one retry loop: the returned error (`none` on
success), attempts issued, and fixed-interval sleeps performed. -/
structure CallOutcome where
  err : Option GoError
  attempts : Nat
  sleeps : Nat
deriving DecidableEq, Repr

/-- The transient condition of `updateTTL`'s loop: an `awserr` with the
resource-in-use code. -/
def ttlTransient : GoError → Bool
  | .awsErr code => code = ErrCodeResourceInUseException
  | _ => false

/-- The transient condition of `updateTable`'s loop: an `awserr` with the
limit-exceeded or resource-in-use code. -/
def tableTransient : GoError → Bool
  | .awsErr code =>
      code = ErrCodeLimitExceededException ∨ code = ErrCodeResourceInUseException
  | _ => false

/-- The body of `updateTTL`'s bounded loop, from attempt index `i` with the
remaining iteration budget as fuel. -/
def updateTTLAux (call : Nat → Option GoError) : Nat → Nat → CallOutcome
  | i, 0 => ⟨some .errRequestWithMaxRetry, i, i⟩
  | i, fuel + 1 =>
      match call i with
      | none => ⟨none, i + 1, i⟩
      | some e =>
          if ttlTransient e then updateTTLAux call (i + 1) fuel
          else ⟨some e, i + 1, i⟩

/-- `Controller.updateTTL`: retry on resource-in-use with a fixed-interval
sleep, up to `MultiIndexUpdateRetryAttempts`; any other error returns
immediately; exhaustion returns `ErrRequestWithMaxRetry`. -/
def updateTTL (call : Nat → Option GoError) : CallOutcome :=
  updateTTLAux call 0 MultiIndexUpdateRetryAttempts

/-- The body of `updateTable`'s bounded loop. -/
def updateTableAux (call : Nat → Option GoError) : Nat → Nat → CallOutcome
  | i, 0 => ⟨some .errRequestWithMaxRetry, i, i⟩
  | i, fuel + 1 =>
      match call i with
      | none => ⟨none, i + 1, i⟩
      | some e =>
          if tableTransient e then updateTableAux call (i + 1) fuel
          else ⟨some e, i + 1, i⟩

/-- `Controller.updateTable`: like `updateTTL` but also retries on the
limit-exceeded code. -/
def updateTable (call : Nat → Option GoError) : CallOutcome :=
  updateTableAux call 0 MultiIndexUpdateRetryAttempts

/-- `Controller.createTable`: one `CreateTable` call — any error is returned
immediately, with no retry loop — followed, when the spec declares a TTL, by
`updateTTL` (which does retry). -/
def createTable (ti : TableInfo) (_env : String)
    (createCall : Option GoError) (ttlCall : Nat → Option GoError) : Option GoError :=
  match createCall with
  | some e => some e
  | none =>
      match ti.TTL with
      | some _ => (updateTTL ttlCall).err
      | none => none

/-- The per-table remote-call outcomes consumed while migrating one table:
the `CreateTable` outcome, the attempt outcomes of the TTL update issued from
inside `createTable`, of the standalone TTL update, and of the `UpdateTable`
call for each queued update input (indexed by its position). -/
structure MigrateCalls where
  createResult : Option GoError := none
  createTTLCalls : Nat → Option GoError := fun _ => none
  ttlCalls : Nat → Option GoError := fun _ => none
  updateCalls : Nat → Nat → Option GoError := fun _ _ => none

/-- `Controller.migrate` (lower-case): apply one validation result.  A carried
error or `CanMigrate = false` yields the single `ErrInvalidMigrationInput`;
otherwise apply create, TTL update, then each queued table update in order,
collecting the errors. -/
def migrateOne (env : String) (calls : MigrateCalls) (r : ValidationResult) : List GoError :=
  if r.Error ≠ none then [.errInvalidMigrationInput]
  else if !r.CanMigrate then [.errInvalidMigrationInput]
  else
    let e1 : List GoError :=
      match r.CreateTableInput with
      | some _ =>
          match createTable r.TableInput env calls.createResult calls.createTTLCalls with
          | some e => [e]
          | none => []
      | none => []
    let e2 : List GoError :=
      match r.UpdateTTLInput with
      | some _ =>
          match (updateTTL calls.ttlCalls).err with
          | some e => [e]
          | none => []
      | none => []
    let e3 : List GoError :=
      (List.range r.UpdateTableInput.length).foldl
        (fun acc j =>
          match (updateTable (calls.updateCalls j)).err with
          | some e => acc ++ [e]
          | none => acc) []
    e1 ++ e2 ++ e3

/-- The body of `Controller.Migrate`'s indexed loop: position `i` receives a
`MigrationResult` only when the validation result at `i` has a non-empty diff;
otherwise the pre-sized slice keeps its nil entry (`none`). -/
def MigrateAux (env : String) (callsAt : Nat → MigrateCalls) :
    Nat → List ValidationResult → List (Option MigrationResult)
  | _, [] => []
  | i, r :: rest =>
      (if r.Diff.length > 0 then
        some { TableInput := r.TableInput, Errors := migrateOne env (callsAt i) r }
      else none) :: MigrateAux env callsAt (i + 1) rest

/-- `Controller.Migrate`: a pre-sized result list, one slot per validation
result; only results with a non-empty diff are migrated (concurrently in the
source; each writes its own slot). -/
def Migrate (env : String) (callsAt : Nat → MigrateCalls)
    (results : List ValidationResult) : List (Option MigrationResult) :=
  MigrateAux env callsAt 0 results

/-- Whether a queued GSI update (create or update) targets the index of the
given name. -/
def actionForB (u : dynamodb.GlobalSecondaryIndexUpdate) (n : String) : Bool :=
  (match u.create with
   | some a => a.indexName = n
   | none => false) ||
  (match u.update with
   | some a => a.indexName = n
   | none => false)

/-- `pat` occurs as a contiguous substring of `s`. -/
def strContainsText (s pat : String) : Prop :=
  ∃ pre post, s = pre ++ pat ++ post

/-! ## Concrete fixtures used by witnesses and counterexamples -/

/-- A client whose describe-table call always fails with the
resource-not-found code. -/
def dbNotFound : DB :=
  ⟨fun _ => .error (.awsErr ErrCodeResourceNotFoundException), fun _ => .ok none⟩

/-- A small configured table. -/
def tblOrders : TableInfo :=
  { Title := "t", TableName := "orders", PrimaryKey := "id",
    ReadThroughput := 1, WriteThroughput := 1 }

/-- `tblOrders` with a declared TTL attribute. -/
def tblOrdersTTL : TableInfo :=
  { tblOrders with TTL := some ⟨"expiry", true⟩ }

/-- A live description matching `tblOrders`'s desired state exactly. -/
def descOrdersInSync : dynamodb.TableDescription :=
  { attributeDefinitions := [⟨"id", "S"⟩], keySchema := [⟨"id", "HASH"⟩],
    localSecondaryIndexes := [], globalSecondaryIndexes := [],
    provisionedThroughput := ⟨1, 1⟩ }

/-- `descOrdersInSync` with drifted table throughput. -/
def descOrdersTpDrift : dynamodb.TableDescription :=
  { descOrdersInSync with provisionedThroughput := ⟨5, 5⟩ }

/-- A client reporting `descOrdersTpDrift` and an absent TTL configuration. -/
def dbTTLMissing : DB :=
  ⟨fun _ => .ok descOrdersTpDrift, fun _ => .ok none⟩

/-- Desired GSI `idx` with key attribute `b` and throughput (2,2). -/
def gsiIdxDesired : dynamodb.GlobalSecondaryIndex :=
  ⟨"idx", [⟨"b", "HASH"⟩], ⟨["id"], "INCLUDE"⟩, ⟨2, 2⟩⟩

/-- Live GSI `idx` with key attribute `a` (renamed partition key) and
throughput (1,1). -/
def gsiIdxLiveOtherKey : dynamodb.GlobalSecondaryIndexDescription :=
  ⟨"idx", [⟨"a", "HASH"⟩], ⟨["id"], "INCLUDE"⟩, ⟨1, 1⟩, 0⟩

/-- Desired GSI `A` (absent from the live state in the `C4` counterexample). -/
def gsiMissingA : dynamodb.GlobalSecondaryIndex :=
  ⟨"A", [⟨"x", "HASH"⟩], ⟨["id"], "INCLUDE"⟩, ⟨1, 1⟩⟩

/-- Desired GSI `B` (absent from the live state in the `C4` counterexample). -/
def gsiMissingB : dynamodb.GlobalSecondaryIndex :=
  ⟨"B", [⟨"x", "HASH"⟩], ⟨["id"], "INCLUDE"⟩, ⟨1, 1⟩⟩

/-- Desired GSI `tp` whose live counterpart differs only in throughput. -/
def gsiTpDesired : dynamodb.GlobalSecondaryIndex :=
  ⟨"tp", [⟨"k", "HASH"⟩], ⟨["id"], "INCLUDE"⟩, ⟨5, 5⟩⟩

/-- Live GSI `tp`: same name, key schema and projection as `gsiTpDesired`,
different throughput. -/
def gsiTpLive : dynamodb.GlobalSecondaryIndexDescription :=
  ⟨"tp", [⟨"k", "HASH"⟩], ⟨["id"], "INCLUDE"⟩, ⟨1, 1⟩, 0⟩

/-- Live GSI `idx` with key attribute `a` but the same throughput as
`gsiIdxDesired` (key schema changed, nothing else). -/
def gsiIdxLiveSameTp : dynamodb.GlobalSecondaryIndexDescription :=
  ⟨"idx", [⟨"a", "HASH"⟩], ⟨["id"], "INCLUDE"⟩, ⟨2, 2⟩, 0⟩

/-- Config index whose built desired GSI is `gsiIdxDesired`. -/
def idxInfoB : IndexInfo :=
  { IndexName := "idx", PrimaryKey := "b", PrimaryKeyType := "S",
    ReadThroughput := 2, WriteThroughput := 2 }

/-- `tblOrders` extended with the config index `idxInfoB`. -/
def tblOrdersIdx : TableInfo := { tblOrders with Indexes := [idxInfoB] }

/-- Live description for `tblOrdersIdx` whose only GSI is `gsiIdxLiveSameTp`
(the renamed-partition-key scenario). -/
def descOrdersIdxLive : dynamodb.TableDescription :=
  { attributeDefinitions := [⟨"id", "S"⟩, ⟨"b", "S"⟩],
    keySchema := [⟨"id", "HASH"⟩],
    localSecondaryIndexes := [],
    globalSecondaryIndexes := [gsiIdxLiveSameTp],
    provisionedThroughput := ⟨1, 1⟩ }

/-- Client reporting `descOrdersIdxLive` for every table. -/
def dbOrdersIdx : DB :=
  ⟨fun _ => .ok descOrdersIdxLive, fun _ => .ok none⟩

/-- Config index whose built desired GSI is `gsiTpDesired`. -/
def idxInfoTp : IndexInfo :=
  { IndexName := "tp", PrimaryKey := "k", PrimaryKeyType := "S",
    ReadThroughput := 5, WriteThroughput := 5 }

/-- `tblOrders` extended with the config index `idxInfoTp`. -/
def tblOrdersTp : TableInfo := { tblOrders with Indexes := [idxInfoTp] }

/-- Live description for `tblOrdersTp` in sync except for the GSI throughput
of `tp` (live (1,1) vs desired (5,5)). -/
def descOrdersTpIdxLive : dynamodb.TableDescription :=
  { attributeDefinitions := [⟨"id", "S"⟩, ⟨"k", "S"⟩],
    keySchema := [⟨"id", "HASH"⟩],
    localSecondaryIndexes := [],
    globalSecondaryIndexes := [gsiTpLive],
    provisionedThroughput := ⟨1, 1⟩ }

/-- Client reporting `descOrdersTpIdxLive` for every table. -/
def dbOrdersTp : DB :=
  ⟨fun _ => .ok descOrdersTpIdxLive, fun _ => .ok none⟩

/-- Config index whose built desired GSI is `gsiMissingA`. -/
def idxInfoA : IndexInfo :=
  { IndexName := "A", PrimaryKey := "x", PrimaryKeyType := "S",
    ReadThroughput := 1, WriteThroughput := 1 }

/-- `tblOrders` extended with the config index `idxInfoA`. -/
def tblOrdersA : TableInfo := { tblOrders with Indexes := [idxInfoA] }

/-- Live description for `tblOrdersA` with no live GSIs at all. -/
def descOrdersNoGSI : dynamodb.TableDescription :=
  { attributeDefinitions := [⟨"id", "S"⟩, ⟨"x", "S"⟩],
    keySchema := [⟨"id", "HASH"⟩],
    localSecondaryIndexes := [],
    globalSecondaryIndexes := [],
    provisionedThroughput := ⟨1, 1⟩ }

/-- Client reporting `descOrdersNoGSI` for every table. -/
def dbOrdersA : DB :=
  ⟨fun _ => .ok descOrdersNoGSI, fun _ => .ok none⟩

end tables

namespace tables

/-! ## General helper lemmas -/

theorem str_length_eq_zero {s : String} (h : s.length = 0) : s = "" := by
  cases s with
  | mk data =>
    simp [String.length] at h
    subst h
    rfl

theorem str_append_eq_empty_iff (a b : String) : a ++ b = "" ↔ a = "" ∧ b = "" := by
  constructor
  · intro hc
    have h0 : a.length + b.length = 0 := by
      simpa [String.length_append] using congrArg String.length hc
    exact ⟨str_length_eq_zero (by omega), str_length_eq_zero (by omega)⟩
  · rintro ⟨ha, hb⟩
    subst ha; subst hb; rfl

theorem str_append_ne_empty_left {a : String} (b : String) (h : a ≠ "") : a ++ b ≠ "" := by
  intro hc
  exact h ((str_append_eq_empty_iff a b).1 hc).1

theorem str_append_ne_empty_right (a : String) {b : String} (h : b ≠ "") : a ++ b ≠ "" := by
  intro hc
  exact h ((str_append_eq_empty_iff a b).1 hc).2

theorem str_length_pos_iff (s : String) : 0 < s.length ↔ s ≠ "" := by
  constructor
  · intro h hc
    subst hc
    simp at h
  · intro h
    rcases Nat.eq_zero_or_pos s.length with h0 | h0
    · exact absurd (str_length_eq_zero h0) h
    · exact h0

theorem cmpDiff_self {α : Type} [DecidableEq α] (a : α) : cmpDiff a a = "" := by
  simp [cmpDiff]

theorem cmpDiff_eq_empty_iff {α : Type} [DecidableEq α] (a b : α) :
    cmpDiff a b = "" ↔ a = b := by
  unfold cmpDiff
  split
  · simp [*]
  · simpa using by assumption

theorem cmpDiff_length_pos_iff {α : Type} [DecidableEq α] (a b : α) :
    0 < (cmpDiff a b).length ↔ a ≠ b := by
  rw [str_length_pos_iff]
  exact not_congr (cmpDiff_eq_empty_iff a b)

/-! ## C1: missing table -/

/-- C1: when the live-description fetch fails with the resource-not-found
code, `compare` returns exactly the missing-table result: the full desired
create input, `CanMigrate = true`, diff `"missing table: <tableName>"`, and
no update-table or TTL inputs (all remaining fields keep their zero values),
with no error.  No further comparison is performed. -/
theorem C1_missing_table (db : DB) (env : String) (tbl : TableInfo)
    (h : db.describeTable (withEnvPrefixName env tbl.Title tbl.TableName) =
      .error (.awsErr ErrCodeResourceNotFoundException)) :
    compare db env tbl =
      (some { TableInput := tbl
              CreateTableInput := some (CreateTableInput tbl env)
              UpdateTableInput := []
              UpdateTTLInput := none
              CanMigrate := true
              Diff := "missing table: " ++ tbl.TableName
              Error := none }, none) := by
  unfold compare
  rw [h]
  simp

/-- Witness for `C1_missing_table` at a concrete client and table. -/
theorem C1_missing_table_witness :
    compare dbNotFound "env" tblOrders =
      (some { TableInput := tblOrders
              CreateTableInput := some (CreateTableInput tblOrders "env")
              UpdateTableInput := []
              UpdateTTLInput := none
              CanMigrate := true
              Diff := "missing table: " ++ tblOrders.TableName
              Error := none }, none) :=
  C1_missing_table dbNotFound "env" tblOrders rfl

/-! ## C2: Validate verdict priority -/

/-- C2: `Validate` returns the full per-table result list (one result per
configured table) and a summary error chosen by priority:
`ErrBackwardIncompatible` if any result is not migratable, else
`ErrBackwardCompatible` if any result has a non-empty diff, else `none`
(in sync) — regardless of how the individual tables fall into the cases. -/
theorem C2_validate_verdict (db : DB) (env : String) (ts : List TableInfo) :
    (Validate db env ts).1.length = ts.length ∧
    (Validate db env ts).2 =
      (if ∃ r ∈ (Validate db env ts).1, r.CanMigrate = false then
        some GoError.errBackwardIncompatible
      else if ∃ r ∈ (Validate db env ts).1, r.Diff ≠ "" then
        some GoError.errBackwardCompatible
      else none) := by
  refine ⟨by simp [Validate], ?_⟩
  simp only [Validate, List.any_eq_true, Bool.not_eq_true', decide_eq_true_eq,
    gt_iff_lt, str_length_pos_iff]

/-! ## C9: Migrate's per-position results -/

theorem MigrateAux_getElem? (env : String) (callsAt : Nat → MigrateCalls) :
    ∀ (l : List ValidationResult) (k i : Nat),
      (MigrateAux env callsAt k l)[i]? =
        l[i]?.map (fun r =>
          if r.Diff.length > 0 then
            some { TableInput := r.TableInput, Errors := migrateOne env (callsAt (k + i)) r }
          else none)
  | [], _, _ => by simp [MigrateAux]
  | r :: rest, k, 0 => by simp [MigrateAux]
  | r :: rest, k, i + 1 => by
      have ih := MigrateAux_getElem? env callsAt rest (k + 1) i
      simp only [MigrateAux, List.getElem?_cons_succ, ih]
      have : k + 1 + i = k + (i + 1) := by omega
      rw [this]

theorem MigrateAux_length (env : String) (callsAt : Nat → MigrateCalls) :
    ∀ (l : List ValidationResult) (k : Nat),
      (MigrateAux env callsAt k l).length = l.length
  | [], _ => rfl
  | r :: rest, k => by
      simp only [MigrateAux, List.length_cons]
      rw [MigrateAux_length env callsAt rest (k + 1)]

/-- C9 counterexample: for a validation result with an empty diff, the
corresponding position of `Migrate`'s returned list holds `none` (the
pre-sized slice's nil entry), not a migration result — refuting the claim
that every position holds a migration result regardless of the diff. -/
theorem C9_counterexample :
    Migrate "env" (fun _ => {}) [{ Diff := "" }] = [none] ∧
      ([({ Diff := "" } : ValidationResult)]).length = 1 :=
  ⟨rfl, rfl⟩

/-- C9 (amended): `Migrate` returns a list of the same length as its input;
a position whose validation result has a non-empty diff holds a migration
result (the table spec plus a possibly-empty error list), while a position
whose validation result has an empty diff holds `none`. -/
theorem C9_migrate_positions (env : String) (callsAt : Nat → MigrateCalls)
    (results : List ValidationResult) :
    (Migrate env callsAt results).length = results.length ∧
    ∀ i : Nat,
      (Migrate env callsAt results)[i]? =
        results[i]?.map (fun r =>
          if r.Diff.length > 0 then
            some { TableInput := r.TableInput, Errors := migrateOne env (callsAt i) r }
          else none) := by
  refine ⟨MigrateAux_length env callsAt results 0, ?_⟩
  intro i
  simpa using MigrateAux_getElem? env callsAt results 0 i

/-! ## C10: the TTL-missing early return discards diff and CanMigrate -/

/-- C10: when the spec declares a TTL, the live table exists, and the
TTL-describe call reports no TTL configuration at all, `compare` returns early
with the result's `Diff` and `CanMigrate` never assigned: the returned result
has `CanMigrate = false` and an empty `Diff` (any diff text accumulated by the
earlier comparison steps is discarded, while the update-table inputs they
queued remain on the result), and the TTL update input is queued. -/
theorem C10_ttl_missing_discards_diff (db : DB) (env : String) (tbl : TableInfo)
    (desc : dynamodb.TableDescription) (t : TTLAttributeInfo)
    (h1 : db.describeTable (withEnvPrefixName env tbl.Title tbl.TableName) = .ok desc)
    (h2 : tbl.TTL = some t)
    (h3 : db.describeTTL (withEnvPrefixName env tbl.Title tbl.TableName) = .ok none) :
    ∃ r, compare db env tbl = (some r, none) ∧
      r.CanMigrate = false ∧
      r.Diff = "" ∧
      r.UpdateTTLInput = NewUpdateTimeToLiveInput tbl env (some t) := by
  unfold compare
  rw [h1]
  unfold compareExisting
  rw [h2, h3]
  exact ⟨_, rfl, rfl, rfl, rfl⟩

/-- Witness for `C10_ttl_missing_discards_diff`: the live table has drifted
throughput, so the discarded accumulated diff was non-empty and an
update-table input had been queued. -/
theorem C10_ttl_missing_discards_diff_witness :
    ∃ r, compare dbTTLMissing "env" tblOrdersTTL = (some r, none) ∧
      r.CanMigrate = false ∧
      r.Diff = "" ∧
      r.UpdateTTLInput = NewUpdateTimeToLiveInput tblOrdersTTL "env" (some ⟨"expiry", true⟩) :=
  C10_ttl_missing_discards_diff dbTTLMissing "env" tblOrdersTTL descOrdersTpDrift
    ⟨"expiry", true⟩ rfl rfl rfl

/-! ## C8: the queued TTL change is skipped by Migrate -/

/-- C8: in the TTL-missing path, `compare` queues an `UpdateTTL` input but
leaves the result's diff text unset; since `Migrate` acts only on results
with non-empty diff text, the table's queued TTL change is skipped (its
`Migrate` slot stays `none`). -/
theorem C8_ttl_missing_skipped_by_migrate (db : DB) (env : String) (tbl : TableInfo)
    (desc : dynamodb.TableDescription) (t : TTLAttributeInfo)
    (h1 : db.describeTable (withEnvPrefixName env tbl.Title tbl.TableName) = .ok desc)
    (h2 : tbl.TTL = some t)
    (h3 : db.describeTTL (withEnvPrefixName env tbl.Title tbl.TableName) = .ok none) :
    ∃ r, compare db env tbl = (some r, none) ∧
      r.UpdateTTLInput = NewUpdateTimeToLiveInput tbl env (some t) ∧
      r.UpdateTTLInput ≠ none ∧
      r.Diff = "" ∧
      ∀ callsAt : Nat → MigrateCalls, Migrate env callsAt [r] = [none] := by
  unfold compare
  rw [h1]
  unfold compareExisting
  rw [h2, h3]
  refine ⟨_, rfl, rfl, by simp [NewUpdateTimeToLiveInput], rfl, fun callsAt => rfl⟩

/-- Witness for `C8_ttl_missing_skipped_by_migrate` at a concrete client. -/
theorem C8_ttl_missing_skipped_by_migrate_witness :
    ∃ r, compare dbTTLMissing "env" tblOrdersTTL = (some r, none) ∧
      r.UpdateTTLInput = NewUpdateTimeToLiveInput tblOrdersTTL "env" (some ⟨"expiry", true⟩) ∧
      r.UpdateTTLInput ≠ none ∧
      r.Diff = "" ∧
      ∀ callsAt : Nat → MigrateCalls, Migrate "env" callsAt [r] = [none] :=
  C8_ttl_missing_skipped_by_migrate dbTTLMissing "env" tblOrdersTTL descOrdersTpDrift
    ⟨"expiry", true⟩ rfl rfl rfl

/-! ## C6: retrying executor -/

theorem updateTTLAux_exhaust :
    ∀ (fuel i : Nat) (call : Nat → Option GoError),
      (∀ j, i ≤ j → j < i + fuel → ∃ e, call j = some e ∧ ttlTransient e = true) →
      updateTTLAux call i fuel = ⟨some .errRequestWithMaxRetry, i + fuel, i + fuel⟩
  | 0, i, call, _ => by simp [updateTTLAux]
  | fuel + 1, i, call, h => by
      obtain ⟨e, he, ht⟩ := h i (Nat.le_refl i) (by omega)
      have ih := updateTTLAux_exhaust fuel (i + 1) call
        (fun j hj1 hj2 => h j (by omega) (by omega))
      simp only [updateTTLAux, he, ht, if_true]
      rw [ih]
      have h1 : i + 1 + fuel = i + (fuel + 1) := by omega
      rw [h1]

theorem updateTTLAux_success :
    ∀ (fuel i k : Nat) (call : Nat → Option GoError),
      i ≤ k → k < i + fuel →
      (∀ j, i ≤ j → j < k → ∃ e, call j = some e ∧ ttlTransient e = true) →
      call k = none →
      updateTTLAux call i fuel = ⟨none, k + 1, k⟩
  | 0, i, k, call, hik, hk, _, _ => by omega
  | fuel + 1, i, k, call, hik, hk, h, hstop => by
      rcases Nat.eq_or_lt_of_le hik with heq | hlt
      · subst heq
        simp [updateTTLAux, hstop]
      · obtain ⟨e, he, ht⟩ := h i (Nat.le_refl i) hlt
        simp only [updateTTLAux, he, ht, if_true]
        exact updateTTLAux_success fuel (i + 1) k call hlt (by omega)
          (fun j hj1 hj2 => h j (by omega) hj2) hstop

theorem updateTTLAux_hardFail :
    ∀ (fuel i k : Nat) (call : Nat → Option GoError) (e : GoError),
      i ≤ k → k < i + fuel →
      (∀ j, i ≤ j → j < k → ∃ e', call j = some e' ∧ ttlTransient e' = true) →
      call k = some e → ttlTransient e = false →
      updateTTLAux call i fuel = ⟨some e, k + 1, k⟩
  | 0, i, k, call, e, hik, hk, _, _, _ => by omega
  | fuel + 1, i, k, call, e, hik, hk, h, hstop, hnt => by
      rcases Nat.eq_or_lt_of_le hik with heq | hlt
      · subst heq
        simp [updateTTLAux, hstop, hnt]
      · obtain ⟨e', he', ht'⟩ := h i (Nat.le_refl i) hlt
        simp only [updateTTLAux, he', ht', if_true]
        exact updateTTLAux_hardFail fuel (i + 1) k call e hlt (by omega)
          (fun j hj1 hj2 => h j (by omega) hj2) hstop hnt

theorem updateTableAux_exhaust :
    ∀ (fuel i : Nat) (call : Nat → Option GoError),
      (∀ j, i ≤ j → j < i + fuel → ∃ e, call j = some e ∧ tableTransient e = true) →
      updateTableAux call i fuel = ⟨some .errRequestWithMaxRetry, i + fuel, i + fuel⟩
  | 0, i, call, _ => by simp [updateTableAux]
  | fuel + 1, i, call, h => by
      obtain ⟨e, he, ht⟩ := h i (Nat.le_refl i) (by omega)
      have ih := updateTableAux_exhaust fuel (i + 1) call
        (fun j hj1 hj2 => h j (by omega) (by omega))
      simp only [updateTableAux, he, ht, if_true]
      rw [ih]
      have h1 : i + 1 + fuel = i + (fuel + 1) := by omega
      rw [h1]

theorem updateTableAux_success :
    ∀ (fuel i k : Nat) (call : Nat → Option GoError),
      i ≤ k → k < i + fuel →
      (∀ j, i ≤ j → j < k → ∃ e, call j = some e ∧ tableTransient e = true) →
      call k = none →
      updateTableAux call i fuel = ⟨none, k + 1, k⟩
  | 0, i, k, call, hik, hk, _, _ => by omega
  | fuel + 1, i, k, call, hik, hk, h, hstop => by
      rcases Nat.eq_or_lt_of_le hik with heq | hlt
      · subst heq
        simp [updateTableAux, hstop]
      · obtain ⟨e, he, ht⟩ := h i (Nat.le_refl i) hlt
        simp only [updateTableAux, he, ht, if_true]
        exact updateTableAux_success fuel (i + 1) k call hlt (by omega)
          (fun j hj1 hj2 => h j (by omega) hj2) hstop

theorem updateTableAux_hardFail :
    ∀ (fuel i k : Nat) (call : Nat → Option GoError) (e : GoError),
      i ≤ k → k < i + fuel →
      (∀ j, i ≤ j → j < k → ∃ e', call j = some e' ∧ tableTransient e' = true) →
      call k = some e → tableTransient e = false →
      updateTableAux call i fuel = ⟨some e, k + 1, k⟩
  | 0, i, k, call, e, hik, hk, _, _, _ => by omega
  | fuel + 1, i, k, call, e, hik, hk, h, hstop, hnt => by
      rcases Nat.eq_or_lt_of_le hik with heq | hlt
      · subst heq
        simp [updateTableAux, hstop, hnt]
      · obtain ⟨e', he', ht'⟩ := h i (Nat.le_refl i) hlt
        simp only [updateTableAux, he', ht', if_true]
        exact updateTableAux_hardFail fuel (i + 1) k call e hlt (by omega)
          (fun j hj1 hj2 => h j (by omega) hj2) hstop hnt

/-- C6 counterexample: `createTable` performs no retry at all — a create call
failing with the (claimed transient) resource-in-use code is returned
immediately and unchanged, not retried up to the ceiling and not converted to
`ErrRequestWithMaxRetry`. -/
theorem C6_counterexample :
    createTable ({} : TableInfo) "env"
        (some (.awsErr ErrCodeResourceInUseException)) (fun _ => none) =
      some (.awsErr ErrCodeResourceInUseException) ∧
    (GoError.awsErr ErrCodeResourceInUseException) ≠ GoError.errRequestWithMaxRetry :=
  ⟨rfl, by decide⟩

/-- C6 (amended): for the update-TTL and update-table calls, an error
recognized as transient for that call kind (resource-in-use for both;
additionally limit-exceeded for update-table) causes one fixed-interval sleep
per retry, up to the fixed ceiling `MultiIndexUpdateRetryAttempts`; any other
error is returned immediately (no further attempt, no further sleep);
exhausting the ceiling returns the dedicated `ErrRequestWithMaxRetry`,
distinct from the underlying transient cause.  The create-table call performs
no retry: any error from the create call is returned immediately. -/
theorem C6_retry_amended :
    (∀ call : Nat → Option GoError,
      (∀ j, j < MultiIndexUpdateRetryAttempts → ∃ e, call j = some e ∧ ttlTransient e = true) →
      updateTTL call = ⟨some .errRequestWithMaxRetry,
        MultiIndexUpdateRetryAttempts, MultiIndexUpdateRetryAttempts⟩) ∧
    (∀ (call : Nat → Option GoError) (k : Nat),
      k < MultiIndexUpdateRetryAttempts →
      (∀ j, j < k → ∃ e, call j = some e ∧ ttlTransient e = true) →
      call k = none → updateTTL call = ⟨none, k + 1, k⟩) ∧
    (∀ (call : Nat → Option GoError) (k : Nat) (e : GoError),
      k < MultiIndexUpdateRetryAttempts →
      (∀ j, j < k → ∃ e', call j = some e' ∧ ttlTransient e' = true) →
      call k = some e → ttlTransient e = false → updateTTL call = ⟨some e, k + 1, k⟩) ∧
    (∀ call : Nat → Option GoError,
      (∀ j, j < MultiIndexUpdateRetryAttempts → ∃ e, call j = some e ∧ tableTransient e = true) →
      updateTable call = ⟨some .errRequestWithMaxRetry,
        MultiIndexUpdateRetryAttempts, MultiIndexUpdateRetryAttempts⟩) ∧
    (∀ (call : Nat → Option GoError) (k : Nat),
      k < MultiIndexUpdateRetryAttempts →
      (∀ j, j < k → ∃ e, call j = some e ∧ tableTransient e = true) →
      call k = none → updateTable call = ⟨none, k + 1, k⟩) ∧
    (∀ (call : Nat → Option GoError) (k : Nat) (e : GoError),
      k < MultiIndexUpdateRetryAttempts →
      (∀ j, j < k → ∃ e', call j = some e' ∧ tableTransient e' = true) →
      call k = some e → tableTransient e = false → updateTable call = ⟨some e, k + 1, k⟩) ∧
    (∀ (ti : TableInfo) (env : String) (e : GoError) (ttlCall : Nat → Option GoError),
      createTable ti env (some e) ttlCall = some e) ∧
    (GoError.errRequestWithMaxRetry ≠ .awsErr ErrCodeResourceInUseException ∧
     GoError.errRequestWithMaxRetry ≠ .awsErr ErrCodeLimitExceededException) := by
  refine ⟨?_, ?_, ?_, ?_, ?_, ?_, ?_, by decide, by decide⟩
  · intro call h
    simpa using updateTTLAux_exhaust MultiIndexUpdateRetryAttempts 0 call
      (fun j _ hj => h j (by omega))
  · intro call k hk h hstop
    exact updateTTLAux_success MultiIndexUpdateRetryAttempts 0 k call (Nat.zero_le k)
      (by omega) (fun j _ hj => h j hj) hstop
  · intro call k e hk h hstop hnt
    exact updateTTLAux_hardFail MultiIndexUpdateRetryAttempts 0 k call e (Nat.zero_le k)
      (by omega) (fun j _ hj => h j hj) hstop hnt
  · intro call h
    simpa using updateTableAux_exhaust MultiIndexUpdateRetryAttempts 0 call
      (fun j _ hj => h j (by omega))
  · intro call k hk h hstop
    exact updateTableAux_success MultiIndexUpdateRetryAttempts 0 k call (Nat.zero_le k)
      (by omega) (fun j _ hj => h j hj) hstop
  · intro call k e hk h hstop hnt
    exact updateTableAux_hardFail MultiIndexUpdateRetryAttempts 0 k call e (Nat.zero_le k)
      (by omega) (fun j _ hj => h j hj) hstop hnt
  · intro ti env e ttlCall
    rfl

/-- Witness for `C6_retry_amended`: exhaustion of the TTL loop on a persistent
resource-in-use error, success of the table loop after two limit-exceeded
retries, and immediate propagation of a non-transient TTL error. -/
theorem C6_retry_amended_witness :
    updateTTL (fun _ => some (.awsErr ErrCodeResourceInUseException)) =
      ⟨some .errRequestWithMaxRetry,
       MultiIndexUpdateRetryAttempts, MultiIndexUpdateRetryAttempts⟩ ∧
    updateTable (fun j => if j < 2 then some (.awsErr ErrCodeLimitExceededException) else none) =
      ⟨none, 3, 2⟩ ∧
    updateTTL (fun _ => some (.other "boom")) = ⟨some (.other "boom"), 1, 0⟩ :=
  ⟨C6_retry_amended.1 _ (fun j _ => ⟨_, rfl, rfl⟩),
   C6_retry_amended.2.2.2.2.1 _ 2 (by decide)
     (fun j hj => ⟨.awsErr ErrCodeLimitExceededException, by rw [if_pos hj], rfl⟩) rfl,
   C6_retry_amended.2.2.1 _ 0 (.other "boom") (by decide) (fun j hj => absurd hj (by omega))
     rfl rfl⟩

/-! ## C7: attribute-definition comparison is order-independent -/

theorem attrLe_trans (a b c : dynamodb.AttributeDefinition)
    (h1 : decide (a.attributeName ≤ b.attributeName) = true)
    (h2 : decide (b.attributeName ≤ c.attributeName) = true) :
    decide (a.attributeName ≤ c.attributeName) = true := by
  simp only [decide_eq_true_eq] at h1 h2 ⊢
  exact le_trans h1 h2

theorem attrLe_total (a b : dynamodb.AttributeDefinition) :
    (decide (a.attributeName ≤ b.attributeName) ||
      decide (b.attributeName ≤ a.attributeName)) = true := by
  simp only [Bool.or_eq_true, decide_eq_true_eq]
  exact le_total a.attributeName b.attributeName

theorem sortAttrs_eq_of_perm_nodup {l1 l2 : List dynamodb.AttributeDefinition}
    (hperm : l1.Perm l2)
    (hnodup : (l1.map (fun a => a.attributeName)).Nodup) :
    sortAttrs l1 = sortAttrs l2 := by
  have hp1 : (sortAttrs l1).Perm l1 := List.mergeSort_perm l1 _
  have hp2 : (sortAttrs l2).Perm l2 := List.mergeSort_perm l2 _
  have hperm' : (sortAttrs l1).Perm (sortAttrs l2) :=
    hp1.trans (hperm.trans hp2.symm)
  have hs1 := @List.sorted_mergeSort dynamodb.AttributeDefinition
    (fun a b => a.attributeName ≤ b.attributeName) attrLe_trans attrLe_total l1
  have hs2 := @List.sorted_mergeSort dynamodb.AttributeDefinition
    (fun a b => a.attributeName ≤ b.attributeName) attrLe_trans attrLe_total l2
  have hn1 : ((sortAttrs l1).map (fun a => a.attributeName)).Nodup :=
    ((hp1.map _).nodup_iff).mpr hnodup
  have hn2 : ((sortAttrs l2).map (fun a => a.attributeName)).Nodup :=
    ((hperm'.symm.map _).nodup_iff).mpr hn1
  have hne1 : (sortAttrs l1).Pairwise (fun a b => a.attributeName ≠ b.attributeName) := by
    rw [List.Nodup, List.pairwise_map] at hn1
    exact hn1
  have hne2 : (sortAttrs l2).Pairwise (fun a b => a.attributeName ≠ b.attributeName) := by
    rw [List.Nodup, List.pairwise_map] at hn2
    exact hn2
  have hlt1 : (sortAttrs l1).Pairwise (fun a b => a.attributeName < b.attributeName) :=
    (hs1.and hne1).imp (fun h => lt_of_le_of_ne (by simpa using h.1) h.2)
  have hlt2 : (sortAttrs l2).Pairwise (fun a b => a.attributeName < b.attributeName) :=
    (hs2.and hne2).imp (fun h => lt_of_le_of_ne (by simpa using h.1) h.2)
  haveI : IsAntisymm dynamodb.AttributeDefinition
      (fun a b => a.attributeName < b.attributeName) :=
    ⟨fun a b h1 h2 => absurd h2 (lt_asymm h1)⟩
  exact List.eq_of_perm_of_sorted hperm' hlt1 hlt2

/-- C7: for attribute-definition lists that are equal as sets keyed by
attribute name (permutations of each other with pairwise-distinct attribute
names), `DiffAttributeDefinitions` returns the empty string — element order
alone never produces a non-empty diff. -/
theorem C7_attr_defs_order_independent (l1 l2 : List dynamodb.AttributeDefinition)
    (hperm : l1.Perm l2)
    (hnodup : (l1.map (fun a => a.attributeName)).Nodup) :
    DiffAttributeDefinitions l1 l2 = "" := by
  rw [DiffAttributeDefinitions, sortAttrs_eq_of_perm_nodup hperm hnodup, cmpDiff_self]

/-- Witness for `C7_attr_defs_order_independent` on the reordered pair from
the package's own test. -/
theorem C7_attr_defs_order_independent_witness :
    DiffAttributeDefinitions
      [⟨"test1", "test1"⟩, ⟨"test2", "test2"⟩]
      [⟨"test2", "test2"⟩, ⟨"test1", "test1"⟩] = "" :=
  C7_attr_defs_order_independent _ _ (by decide) (by decide)

/-! ## Lemmas about `DiffGSI`'s loop -/

theorem lookupGSI_indexName {desc : List dynamodb.GlobalSecondaryIndexDescription}
    {n : String} {obj : dynamodb.GlobalSecondaryIndex}
    (h : lookupGSI desc n = some obj) : obj.indexName = n := by
  unfold lookupGSI at h
  cases hfind : desc.reverse.find? (fun g => g.indexName = n) with
  | none => rw [hfind] at h; simp at h
  | some g =>
      rw [hfind] at h
      have hp := List.find?_some hfind
      simp only [decide_eq_true_eq] at hp
      simp only [Option.map_some'] at h
      cases h
      exact hp

theorem gsiStep_exact {desc : List dynamodb.GlobalSecondaryIndexDescription}
    {g : dynamodb.GlobalSecondaryIndex}
    (h : lookupGSI desc g.indexName = some g) (s : GSIFoldState) :
    gsiStep desc s g = s := by
  simp [gsiStep, h, DiffIndexName, DiffKeySchema, DiffProjection,
    DiffProvisionedThroughput, cmpDiff_self, String.append_empty]

theorem foldl_gsiStep_exact {desc : List dynamodb.GlobalSecondaryIndexDescription} :
    ∀ (l : List dynamodb.GlobalSecondaryIndex) (s : GSIFoldState),
      (∀ g ∈ l, lookupGSI desc g.indexName = some g) →
      l.foldl (gsiStep desc) s = s
  | [], _, _ => rfl
  | g :: rest, s, h => by
      rw [List.foldl_cons, gsiStep_exact (h g (by simp)) s]
      exact foldl_gsiStep_exact rest s (fun g' hg' => h g' (by simp [hg']))

theorem gsiStep_diff_ne_preserved {desc : List dynamodb.GlobalSecondaryIndexDescription}
    {s : GSIFoldState} (g : dynamodb.GlobalSecondaryIndex) (h : s.diff ≠ "") :
    (gsiStep desc s g).diff ≠ "" := by
  unfold gsiStep
  cases hl : lookupGSI desc g.indexName with
  | none =>
      simp only []
      exact str_append_ne_empty_left _ (by decide)
  | some obj =>
      simp only []
      intro hc
      split at hc <;>
        (simp only [str_append_eq_empty_iff] at hc; tauto)

theorem foldl_gsiStep_diff_ne {desc : List dynamodb.GlobalSecondaryIndexDescription} :
    ∀ (l : List dynamodb.GlobalSecondaryIndex) (s : GSIFoldState),
      s.diff ≠ "" → (l.foldl (gsiStep desc) s).diff ≠ ""
  | [], _, h => h
  | g :: rest, s, h => by
      rw [List.foldl_cons]
      exact foldl_gsiStep_diff_ne rest _ (gsiStep_diff_ne_preserved g h)

theorem gsiStep_ks_mismatch_diff_ne {desc : List dynamodb.GlobalSecondaryIndexDescription}
    {g obj : dynamodb.GlobalSecondaryIndex}
    (hl : lookupGSI desc g.indexName = some obj)
    (hks : obj.keySchema ≠ g.keySchema) (s : GSIFoldState) :
    (gsiStep desc s g).diff ≠ "" := by
  have hd2 : DiffKeySchema obj.keySchema g.keySchema ≠ "" := by
    rw [Ne, DiffKeySchema, cmpDiff_eq_empty_iff]
    exact hks
  unfold gsiStep
  rw [hl]
  simp only []
  intro hc
  split at hc <;>
    (simp only [str_append_eq_empty_iff] at hc; tauto)

theorem gsiStep_actions_other {desc : List dynamodb.GlobalSecondaryIndexDescription}
    {g : dynamodb.GlobalSecondaryIndex} {n : String}
    (hne : g.indexName ≠ n) (s : GSIFoldState) :
    ∀ u ∈ (gsiStep desc s g).gsiInput, u ∈ s.gsiInput ∨ actionForB u n = false := by
  intro u hu
  unfold gsiStep at hu
  cases hl : lookupGSI desc g.indexName with
  | none =>
      rw [hl] at hu
      simp only [List.mem_append, List.mem_singleton] at hu
      rcases hu with hu | hu
      · exact Or.inl hu
      · subst hu
        right
        simp [actionForB, hne]
  | some obj =>
      rw [hl] at hu
      simp only [] at hu
      split at hu
      · simp only [List.mem_append, List.mem_singleton] at hu
        rcases hu with hu | hu
        · exact Or.inl hu
        · subst hu
          right
          simp [actionForB, hne]
      · exact Or.inl hu

theorem foldl_gsiStep_actions_other {desc : List dynamodb.GlobalSecondaryIndexDescription}
    {n : String} :
    ∀ (l : List dynamodb.GlobalSecondaryIndex) (s : GSIFoldState),
      (∀ g ∈ l, g.indexName ≠ n) →
      (∀ u ∈ s.gsiInput, actionForB u n = false) →
      ∀ u ∈ (l.foldl (gsiStep desc) s).gsiInput, actionForB u n = false
  | [], _, _, hs, u, hu => hs u hu
  | g :: rest, s, hl, hs, u, hu => by
      rw [List.foldl_cons] at hu
      refine foldl_gsiStep_actions_other rest _ (fun g' hg' => hl g' (by simp [hg']))
        ?_ u hu
      intro u' hu'
      rcases gsiStep_actions_other (hl g (by simp)) s u' hu' with h | h
      · exact hs u' h
      · exact h

theorem gsiStep_tp_equal_gsiInput {desc : List dynamodb.GlobalSecondaryIndexDescription}
    {g obj : dynamodb.GlobalSecondaryIndex}
    (hl : lookupGSI desc g.indexName = some obj)
    (htp : obj.provisionedThroughput = g.provisionedThroughput) (s : GSIFoldState) :
    (gsiStep desc s g).gsiInput = s.gsiInput := by
  unfold gsiStep
  rw [hl]
  simp [DiffProvisionedThroughput, htp, cmpDiff_self]

theorem gsiCanMigrate_false_of_ks {desc : List dynamodb.GlobalSecondaryIndexDescription}
    {input : List dynamodb.GlobalSecondaryIndex} {gsi obj : dynamodb.GlobalSecondaryIndex}
    (hmem : gsi ∈ input)
    (hl : lookupGSI desc gsi.indexName = some obj)
    (hks : obj.keySchema ≠ gsi.keySchema) :
    gsiCanMigrate desc input = false := by
  cases h : gsiCanMigrate desc input with
  | false => rfl
  | true =>
      exfalso
      rw [gsiCanMigrate, List.all_eq_true] at h
      have hg := h gsi hmem
      rw [hl] at hg
      simp only [decide_eq_true_eq, DiffKeySchema, cmpDiff_eq_empty_iff] at hg
      exact hks hg.1

theorem gsiCanMigrate_true_of_clean {desc : List dynamodb.GlobalSecondaryIndexDescription}
    {input : List dynamodb.GlobalSecondaryIndex}
    (h : ∀ g ∈ input, ∀ obj, lookupGSI desc g.indexName = some obj →
      DiffKeySchema obj.keySchema g.keySchema = "" ∧
        DiffProjection obj.projection g.projection = "") :
    gsiCanMigrate desc input = true := by
  rw [gsiCanMigrate, List.all_eq_true]
  intro g hg
  cases hl : lookupGSI desc g.indexName with
  | none => simp
  | some obj =>
      simp only [decide_eq_true_eq]
      exact h g hg obj hl

/-- The `CanMigrate` field of any result returned by `compareExisting`: the
TTL-error and TTL-missing early returns leave it `false` (its zero value);
the two completing paths return the accumulated `canMigrate` — the GSI
verdict when the GSI diff is non-empty, else `false` exactly when the
table-description diff is non-empty. -/
theorem compareExisting_fst_CanMigrate (db : DB) (env : String) (tbl : TableInfo)
    (desc : dynamodb.TableDescription) (r : ValidationResult)
    (hr : (compareExisting db env tbl desc).1 = some r) :
    r.CanMigrate = false ∨
    r.CanMigrate =
      (if (DiffGSI desc.globalSecondaryIndexes
            (CreateTableInput tbl env).globalSecondaryIndexes).Diff.length > 0 then
        (DiffGSI desc.globalSecondaryIndexes
          (CreateTableInput tbl env).globalSecondaryIndexes).CanMigrate
      else if (DiffTableDesc desc (CreateTableInput tbl env)).length > 0 then false
      else true) := by
  unfold compareExisting at hr
  cases httl : tbl.TTL with
  | none =>
      rw [httl] at hr
      simp only [Option.some.injEq] at hr
      subst hr
      right
      rfl
  | some ttlInfo =>
      rw [httl] at hr
      simp only [] at hr
      cases hd : db.describeTTL (withEnvPrefixName env tbl.Title tbl.TableName) with
      | error e =>
          rw [hd] at hr
          simp only [Option.some.injEq] at hr
          subst hr
          exact Or.inl rfl
      | ok ttl? =>
          rw [hd] at hr
          cases ttl? with
          | none =>
              simp only [Option.some.injEq] at hr
              subst hr
              exact Or.inl rfl
          | some ttl =>
              simp only [Option.some.injEq] at hr
              subst hr
              right
              rfl

/-! ## C3: secondary index with changed key schema -/

/-- C3 counterexample: for a desired index that exists live under the same
name but with a different key schema *and* different throughput, `DiffGSI`
still emits an `Update` action for that index (the throughput branch runs
unconditionally), refuting the claim that no update action is emitted for an
index whose key schema changed. -/
theorem C3_counterexample :
    lookupGSI [gsiIdxLiveOtherKey] gsiIdxDesired.indexName =
      some ⟨"idx", [⟨"a", "HASH"⟩], ⟨["id"], "INCLUDE"⟩, ⟨1, 1⟩⟩ ∧
    ([⟨"a", "HASH"⟩] : List dynamodb.KeySchemaElement) ≠ gsiIdxDesired.keySchema ∧
    (DiffGSI [gsiIdxLiveOtherKey] [gsiIdxDesired]).GSIInput =
      [{ update := some ⟨"idx", ⟨2, 2⟩⟩ }] ∧
    actionForB { update := some ⟨"idx", ⟨2, 2⟩⟩ } gsiIdxDesired.indexName = true :=
  ⟨rfl, by decide, rfl, rfl⟩

/-- C3 (amended): for a desired secondary index that exists live under the
same name but with a different key schema, and whose provisioned throughput is
unchanged (the amendment — otherwise the unconditional throughput branch still
emits an `UpdateIndexThroughput` action), the produced diff is non-empty, no
action (create or update) is emitted for that index, and the containing
table's `CanMigrate` becomes false — both in `DiffGSI`'s verdict and in every
result `compare` returns for the containing table. -/
theorem C3_key_schema_changed_amended
    (desc : List dynamodb.GlobalSecondaryIndexDescription)
    (input pre post : List dynamodb.GlobalSecondaryIndex)
    (gsi obj : dynamodb.GlobalSecondaryIndex)
    (hsplit : input = pre ++ gsi :: post)
    (hlook : lookupGSI desc gsi.indexName = some obj)
    (hks : obj.keySchema ≠ gsi.keySchema)
    (htp : obj.provisionedThroughput = gsi.provisionedThroughput)
    (hnodup : (input.map (fun g => g.indexName)).Nodup) :
    (DiffGSI desc input).Diff ≠ "" ∧
    (∀ u ∈ (DiffGSI desc input).GSIInput, actionForB u gsi.indexName = false) ∧
    (DiffGSI desc input).CanMigrate = false ∧
    (∀ (db : DB) (env : String) (tbl : TableInfo) (desc' : dynamodb.TableDescription)
      (r : ValidationResult),
      db.describeTable (withEnvPrefixName env tbl.Title tbl.TableName) = .ok desc' →
      desc'.globalSecondaryIndexes = desc →
      (CreateTableInput tbl env).globalSecondaryIndexes = input →
      (compare db env tbl).1 = some r → r.CanMigrate = false) := by
  subst hsplit
  have hmem : gsi ∈ pre ++ gsi :: post := by simp
  have hpw : (pre ++ gsi :: post).Pairwise (fun a b => a.indexName ≠ b.indexName) := by
    rw [List.Nodup, List.pairwise_map] at hnodup
    exact hnodup
  rw [List.pairwise_append] at hpw
  obtain ⟨hpwPre, hpwCons, hcross⟩ := hpw
  rw [List.pairwise_cons] at hpwCons
  obtain ⟨hgsiPost, _⟩ := hpwCons
  have hpreName : ∀ g ∈ pre, g.indexName ≠ gsi.indexName :=
    fun g hg => hcross g hg gsi (by simp)
  have hpostName : ∀ g ∈ post, g.indexName ≠ gsi.indexName :=
    fun g hg => (hgsiPost g hg).symm
  have hcond : ¬((desc.length = 0 ∧ (pre ++ gsi :: post).length = 0)) := by
    simp
  set s0 := pre.foldl (gsiStep desc) ⟨"", [], ""⟩ with hs0
  set s1 := gsiStep desc s0 gsi with hs1
  set sfin := post.foldl (gsiStep desc) s1 with hsfin
  have hfold : (pre ++ gsi :: post).foldl (gsiStep desc) ⟨"", [], ""⟩ = sfin := by
    rw [List.foldl_append, List.foldl_cons]
  have hDiffGSI : DiffGSI desc (pre ++ gsi :: post) =
      { GSIInput := sfin.gsiInput
        Diff := if sfin.diff.length > 0 then sfin.diff else sfin.resultDiff
        CanMigrate := gsiCanMigrate desc (pre ++ gsi :: post) } := by
    rw [DiffGSI, if_neg hcond, hfold]
  have hdiffne : sfin.diff ≠ "" := by
    rw [hsfin]
    exact foldl_gsiStep_diff_ne post _ (gsiStep_ks_mismatch_diff_ne hlook hks s0)
  have hpos : sfin.diff.length > 0 := (str_length_pos_iff _).2 hdiffne
  have hDiff : (DiffGSI desc (pre ++ gsi :: post)).Diff = sfin.diff := by
    rw [hDiffGSI]
    simp only [if_pos hpos]
  have hActions : ∀ u ∈ sfin.gsiInput, actionForB u gsi.indexName = false := by
    rw [hsfin]
    refine foldl_gsiStep_actions_other post s1 hpostName ?_
    rw [hs1, gsiStep_tp_equal_gsiInput hlook htp s0, hs0]
    refine foldl_gsiStep_actions_other pre _ hpreName ?_
    intro u hu
    simp at hu
  have hCM : gsiCanMigrate desc (pre ++ gsi :: post) = false :=
    gsiCanMigrate_false_of_ks hmem hlook hks
  refine ⟨by rw [hDiff]; exact hdiffne, ?_, by rw [hDiffGSI]; exact hCM, ?_⟩
  · intro u hu
    rw [hDiffGSI] at hu
    exact hActions u hu
  · intro db env tbl desc' r hdesc hgsis hbuilt hr
    have hr' : (compareExisting db env tbl desc').1 = some r := by
      unfold compare at hr
      rw [hdesc] at hr
      exact hr
    rcases compareExisting_fst_CanMigrate db env tbl desc' r hr' with h | h
    · exact h
    · rw [h, hgsis, hbuilt, hDiff, if_pos hpos, hDiffGSI]
      exact hCM

/-- Witness for `C3_key_schema_changed_amended`: live GSI `idx` has key
attribute `a`; the desired GSI (built from config index `idxInfoB`) has key
attribute `b` with identical throughput.  Both `DiffGSI`'s verdict and the
full `compare` on the containing table report the change as non-migratable
with no queued action for the index. -/
theorem C3_key_schema_changed_witness :
    (DiffGSI [gsiIdxLiveSameTp] [gsiIdxDesired]).Diff ≠ "" ∧
    (DiffGSI [gsiIdxLiveSameTp] [gsiIdxDesired]).GSIInput = [] ∧
    (DiffGSI [gsiIdxLiveSameTp] [gsiIdxDesired]).CanMigrate = false ∧
    ((compare dbOrdersIdx "env" tblOrdersIdx).1.getD {}).CanMigrate = false := by
  have h := C3_key_schema_changed_amended [gsiIdxLiveSameTp] [gsiIdxDesired] [] []
    gsiIdxDesired ⟨"idx", [⟨"a", "HASH"⟩], ⟨["id"], "INCLUDE"⟩, ⟨2, 2⟩⟩
    rfl rfl (by decide) rfl (by decide)
  exact ⟨h.1, rfl, h.2.2.1,
    h.2.2.2 dbOrdersIdx "env" tblOrdersIdx descOrdersIdxLive _ rfl rfl rfl rfl⟩

/-! ## C5: secondary index with only throughput changed -/

theorem gsiStep_tp_only {desc : List dynamodb.GlobalSecondaryIndexDescription}
    {g obj : dynamodb.GlobalSecondaryIndex}
    (hl : lookupGSI desc g.indexName = some obj)
    (hks : obj.keySchema = g.keySchema)
    (hproj : obj.projection = g.projection)
    (htp : obj.provisionedThroughput ≠ g.provisionedThroughput) (s : GSIFoldState) :
    gsiStep desc s g =
      { diff := s.diff ++ "<mismatch>" ++ "<mismatch>"
        gsiInput := s.gsiInput ++ [{ update := some ⟨g.indexName, g.provisionedThroughput⟩ }]
        resultDiff := s.resultDiff } := by
  have hnm : obj.indexName = g.indexName := lookupGSI_indexName hl
  simp only [gsiStep, hl, hnm, hks, hproj, DiffIndexName, DiffKeySchema, DiffProjection,
    DiffProvisionedThroughput, cmpDiff_self, cmpDiff, htp, ite_false, if_neg,
    String.append_empty, gt_iff_lt]
  rw [if_pos (by decide : (0 : Nat) < "<mismatch>".length),
    if_pos (by decide : (0 : Nat) < "<mismatch>".length)]
  simp [htp, String.append_empty]
  decide

/-- In the TTL-less path, `compareExisting` completes and returns the
accumulated `canMigrate`. -/
theorem compareExisting_TTL_none (db : DB) (env : String) (tbl : TableInfo)
    (desc : dynamodb.TableDescription) (httl : tbl.TTL = none) :
    ∃ r, compareExisting db env tbl desc = (some r, none) ∧
      r.CanMigrate =
        (if (DiffGSI desc.globalSecondaryIndexes
              (CreateTableInput tbl env).globalSecondaryIndexes).Diff.length > 0 then
          (DiffGSI desc.globalSecondaryIndexes
            (CreateTableInput tbl env).globalSecondaryIndexes).CanMigrate
        else if (DiffTableDesc desc (CreateTableInput tbl env)).length > 0 then false
        else true) := by
  unfold compareExisting
  rw [httl]
  exact ⟨_, rfl, rfl⟩

/-- C5: for a desired secondary index that exists live with identical name,
key schema and projection but different provisioned capacity units — every
other desired index matching its live counterpart exactly — `DiffGSI` returns
a non-empty diff and exactly one `Update` (index-throughput) action, which is
for that index and carries the desired throughput; the GSI verdict stays
migratable, and on a containing table that is otherwise in sync (no
table-description diff, no declared TTL) `compare` keeps `CanMigrate = true`. -/
theorem C5_tp_only_index_change
    (desc : List dynamodb.GlobalSecondaryIndexDescription)
    (input pre post : List dynamodb.GlobalSecondaryIndex)
    (gsi obj : dynamodb.GlobalSecondaryIndex)
    (hsplit : input = pre ++ gsi :: post)
    (hlook : lookupGSI desc gsi.indexName = some obj)
    (hks : obj.keySchema = gsi.keySchema)
    (hproj : obj.projection = gsi.projection)
    (htp : obj.provisionedThroughput ≠ gsi.provisionedThroughput)
    (hexact : ∀ g ∈ pre ++ post, lookupGSI desc g.indexName = some g) :
    (DiffGSI desc input).Diff ≠ "" ∧
    (DiffGSI desc input).GSIInput =
      [{ update := some ⟨gsi.indexName, gsi.provisionedThroughput⟩ }] ∧
    (DiffGSI desc input).CanMigrate = true ∧
    (∀ (db : DB) (env : String) (tbl : TableInfo) (desc' : dynamodb.TableDescription)
      (r : ValidationResult),
      db.describeTable (withEnvPrefixName env tbl.Title tbl.TableName) = .ok desc' →
      desc'.globalSecondaryIndexes = desc →
      (CreateTableInput tbl env).globalSecondaryIndexes = input →
      tbl.TTL = none →
      DiffTableDesc desc' (CreateTableInput tbl env) = "" →
      (compare db env tbl).1 = some r → r.CanMigrate = true) := by
  subst hsplit
  have hpreEx : ∀ g ∈ pre, lookupGSI desc g.indexName = some g :=
    fun g hg => hexact g (List.mem_append_left _ hg)
  have hpostEx : ∀ g ∈ post, lookupGSI desc g.indexName = some g :=
    fun g hg => hexact g (List.mem_append_right _ hg)
  have hcond : ¬((desc.length = 0 ∧ (pre ++ gsi :: post).length = 0)) := by simp
  have hs0 : pre.foldl (gsiStep desc) ⟨"", [], ""⟩ = ⟨"", [], ""⟩ :=
    foldl_gsiStep_exact pre _ hpreEx
  have hs1 : gsiStep desc ⟨"", [], ""⟩ gsi =
      ⟨"" ++ "<mismatch>" ++ "<mismatch>",
       [] ++ [{ update := some ⟨gsi.indexName, gsi.provisionedThroughput⟩ }], ""⟩ :=
    gsiStep_tp_only hlook hks hproj htp _
  have hfold : (pre ++ gsi :: post).foldl (gsiStep desc) ⟨"", [], ""⟩ =
      ⟨"" ++ "<mismatch>" ++ "<mismatch>",
       [] ++ [{ update := some ⟨gsi.indexName, gsi.provisionedThroughput⟩ }], ""⟩ := by
    rw [List.foldl_append, List.foldl_cons, hs0, hs1]
    exact foldl_gsiStep_exact post _ hpostEx
  have hDiffGSI : DiffGSI desc (pre ++ gsi :: post) =
      { GSIInput := [{ update := some ⟨gsi.indexName, gsi.provisionedThroughput⟩ }]
        Diff := "" ++ "<mismatch>" ++ "<mismatch>"
        CanMigrate := gsiCanMigrate desc (pre ++ gsi :: post) } := by
    rw [DiffGSI, if_neg hcond, hfold]
    simp
    decide
  have hclean : ∀ g ∈ pre ++ gsi :: post, ∀ obj',
      lookupGSI desc g.indexName = some obj' →
      DiffKeySchema obj'.keySchema g.keySchema = "" ∧
        DiffProjection obj'.projection g.projection = "" := by
    intro g hg obj' hl'
    rcases List.mem_append.1 hg with hg | hg
    · have := hpreEx g hg
      rw [this] at hl'
      cases hl'
      exact ⟨by rw [DiffKeySchema, cmpDiff_self], by rw [DiffProjection, cmpDiff_self]⟩
    · rcases List.mem_cons.1 hg with hg | hg
      · subst hg
        rw [hlook] at hl'
        cases hl'
        exact ⟨by rw [DiffKeySchema, hks, cmpDiff_self],
               by rw [DiffProjection, hproj, cmpDiff_self]⟩
      · have := hpostEx g hg
        rw [this] at hl'
        cases hl'
        exact ⟨by rw [DiffKeySchema, cmpDiff_self], by rw [DiffProjection, cmpDiff_self]⟩
  have hCM : gsiCanMigrate desc (pre ++ gsi :: post) = true :=
    gsiCanMigrate_true_of_clean hclean
  have hdiffne : ("" ++ "<mismatch>" ++ "<mismatch>" : String) ≠ "" := by decide
  refine ⟨by rw [hDiffGSI]; exact hdiffne, by rw [hDiffGSI], by rw [hDiffGSI]; exact hCM, ?_⟩
  intro db env tbl desc' r hdesc hgsis hbuilt httl htd hr
  obtain ⟨r0, he, hcm⟩ := compareExisting_TTL_none db env tbl desc' httl
  have hr' : (compareExisting db env tbl desc').1 = some r := by
    unfold compare at hr
    rw [hdesc] at hr
    exact hr
  rw [he] at hr'
  simp only [Option.some.injEq] at hr'
  subst hr'
  rw [hcm, hgsis, hbuilt, hDiffGSI]
  simp only []
  rw [if_pos (by rw [show ("" ++ "<mismatch>" ++ "<mismatch>" : String).length = 20 from by decide]; omega)]
  exact hCM

/-- Witness for `C5_tp_only_index_change`: live GSI `tp` has throughput (1,1)
while the desired (built from `idxInfoTp`) declares (5,5); the single queued
action is the index-throughput update and the table stays migratable. -/
theorem C5_tp_only_index_change_witness :
    (DiffGSI [gsiTpLive] [gsiTpDesired]).Diff ≠ "" ∧
    (DiffGSI [gsiTpLive] [gsiTpDesired]).GSIInput =
      [{ update := some ⟨"tp", ⟨5, 5⟩⟩ }] ∧
    (DiffGSI [gsiTpLive] [gsiTpDesired]).CanMigrate = true ∧
    ((compare dbOrdersTp "env" tblOrdersTp).1.getD {}).CanMigrate = true := by
  have h := C5_tp_only_index_change [gsiTpLive] [gsiTpDesired] [] []
    gsiTpDesired ⟨"tp", [⟨"k", "HASH"⟩], ⟨["id"], "INCLUDE"⟩, ⟨1, 1⟩⟩
    rfl rfl rfl rfl (by decide) (fun g hg => absurd hg (by simp))
  exact ⟨h.1, h.2.1, h.2.2.1,
    h.2.2.2 dbOrdersTp "env" tblOrdersTp descOrdersTpIdxLive _ rfl rfl rfl rfl rfl rfl⟩

/-! ## C4: missing secondary index -/

theorem gsiStep_missing {desc : List dynamodb.GlobalSecondaryIndexDescription}
    {g : dynamodb.GlobalSecondaryIndex}
    (hl : lookupGSI desc g.indexName = none) (s : GSIFoldState) :
    gsiStep desc s g =
      { diff := "missing index: " ++ g.indexName
        gsiInput := s.gsiInput ++
          [{ create := some ⟨g.indexName, g.keySchema, g.projection,
                             g.provisionedThroughput⟩ }]
        resultDiff := "missing index: " ++ g.indexName } := by
  simp [gsiStep, hl]

theorem gsiStep_present_diff_extends {desc : List dynamodb.GlobalSecondaryIndexDescription}
    {g obj : dynamodb.GlobalSecondaryIndex}
    (hl : lookupGSI desc g.indexName = some obj) (s : GSIFoldState) :
    ∃ t, (gsiStep desc s g).diff = s.diff ++ t := by
  unfold gsiStep
  rw [hl]
  simp only []
  set d1 := DiffIndexName obj.indexName g.indexName
  set d2 := DiffKeySchema obj.keySchema g.keySchema
  set d3 := DiffProjection obj.projection g.projection
  set d4 := DiffProvisionedThroughput obj.provisionedThroughput g.provisionedThroughput
  split
  · refine ⟨d1 ++ (d2 ++ (d3 ++ (d4 ++ (d1 ++ (d2 ++ (d3 ++ d4)))))), ?_⟩
    simp only [String.append_assoc]
  · refine ⟨d1 ++ (d2 ++ (d3 ++ (d1 ++ (d2 ++ d3)))), ?_⟩
    simp only [String.append_assoc, String.append_empty]

theorem foldl_gsiStep_diff_extends {desc : List dynamodb.GlobalSecondaryIndexDescription} :
    ∀ (l : List dynamodb.GlobalSecondaryIndex) (s : GSIFoldState),
      (∀ g ∈ l, lookupGSI desc g.indexName ≠ none) →
      ∃ t, (l.foldl (gsiStep desc) s).diff = s.diff ++ t
  | [], s, _ => ⟨"", by simp [String.append_empty]⟩
  | g :: rest, s, h => by
      rw [List.foldl_cons]
      cases hl : lookupGSI desc g.indexName with
      | none => exact absurd hl (h g (by simp))
      | some obj =>
          obtain ⟨t1, ht1⟩ := gsiStep_present_diff_extends hl s
          obtain ⟨t2, ht2⟩ :=
            foldl_gsiStep_diff_extends rest (gsiStep desc s g)
              (fun g' hg' => h g' (by simp [hg']))
          exact ⟨t1 ++ t2, by rw [ht2, ht1, String.append_assoc]⟩

theorem gsiStep_filter_other {desc : List dynamodb.GlobalSecondaryIndexDescription}
    {g : dynamodb.GlobalSecondaryIndex} {n : String}
    (hne : g.indexName ≠ n) (s : GSIFoldState) :
    ((gsiStep desc s g).gsiInput).filter (fun u => actionForB u n) =
      s.gsiInput.filter (fun u => actionForB u n) := by
  unfold gsiStep
  cases hl : lookupGSI desc g.indexName with
  | none =>
      simp only [List.filter_append]
      rw [show (List.filter (fun u => actionForB u n)
          [({ create := some ⟨g.indexName, g.keySchema, g.projection,
              g.provisionedThroughput⟩ } : dynamodb.GlobalSecondaryIndexUpdate)]) = [] from by
        simp [actionForB, hne]]
      simp
  | some obj =>
      simp only []
      split
      · simp only [List.filter_append]
        rw [show (List.filter (fun u => actionForB u n)
            [({ update := some ⟨g.indexName, g.provisionedThroughput⟩ } :
              dynamodb.GlobalSecondaryIndexUpdate)]) = [] from by
          simp [actionForB, hne]]
        simp
      · rfl

theorem foldl_gsiStep_filter_other {desc : List dynamodb.GlobalSecondaryIndexDescription}
    {n : String} :
    ∀ (l : List dynamodb.GlobalSecondaryIndex) (s : GSIFoldState),
      (∀ g ∈ l, g.indexName ≠ n) →
      ((l.foldl (gsiStep desc) s).gsiInput).filter (fun u => actionForB u n) =
        s.gsiInput.filter (fun u => actionForB u n)
  | [], _, _ => rfl
  | g :: rest, s, h => by
      rw [List.foldl_cons,
        foldl_gsiStep_filter_other rest _ (fun g' hg' => h g' (by simp [hg'])),
        gsiStep_filter_other (h g (by simp)) s]

/-- C4 counterexample: with two desired indexes both absent from the live
state, the later missing index *overwrites* the accumulated diff text, so the
final `Diff` does not contain `"missing index: A"` even though desired index
`A` is missing — refuting the claim's diff guarantee for every missing
index.  (Both `Create` actions are still queued.) -/
theorem C4_counterexample :
    lookupGSI [] gsiMissingA.indexName = none ∧
    (DiffGSI [] [gsiMissingA, gsiMissingB]).Diff = "missing index: B" ∧
    ¬ strContainsText (DiffGSI [] [gsiMissingA, gsiMissingB]).Diff "missing index: A" := by
  refine ⟨rfl, rfl, ?_⟩
  rintro ⟨pre, post, h⟩
  rw [show (DiffGSI [] [gsiMissingA, gsiMissingB]).Diff = "missing index: B" from rfl] at h
  have hlen := congrArg String.length h
  rw [String.length_append, String.length_append] at hlen
  rw [show ("missing index: B").length = 16 from by decide,
    show ("missing index: A").length = 16 from by decide] at hlen
  have hpre : pre = "" := str_length_eq_zero (by omega)
  have hpost : post = "" := str_length_eq_zero (by omega)
  subst hpre
  subst hpost
  rw [String.empty_append, String.append_empty] at h
  exact absurd h (by decide)

/-- C4 (amended): for a desired secondary index whose name does not occur
among the live index descriptions, `DiffGSI` queues exactly one `Create`
action for that index (given unique desired index names), carrying the
desired key schema, projection and provisioned throughput; the diff contains
`"missing index: <name>"` provided no *later* desired index is also missing
(a later missing index overwrites the accumulated diff text — the
amendment); and the GSI verdict remains migratable as long as no index
present live differs in key schema or projection. -/
theorem C4_missing_index_amended
    (desc : List dynamodb.GlobalSecondaryIndexDescription)
    (input pre post : List dynamodb.GlobalSecondaryIndex)
    (gsi : dynamodb.GlobalSecondaryIndex)
    (hsplit : input = pre ++ gsi :: post)
    (hmiss : lookupGSI desc gsi.indexName = none)
    (hnodup : (input.map (fun g => g.indexName)).Nodup)
    (hpost : ∀ g ∈ post, lookupGSI desc g.indexName ≠ none)
    (hclean : ∀ g ∈ input, ∀ obj, lookupGSI desc g.indexName = some obj →
      DiffKeySchema obj.keySchema g.keySchema = "" ∧
        DiffProjection obj.projection g.projection = "") :
    strContainsText (DiffGSI desc input).Diff ("missing index: " ++ gsi.indexName) ∧
    (DiffGSI desc input).GSIInput.filter (fun u => actionForB u gsi.indexName) =
      [{ create := some ⟨gsi.indexName, gsi.keySchema, gsi.projection,
                         gsi.provisionedThroughput⟩ }] ∧
    (DiffGSI desc input).CanMigrate = true ∧
    (∀ (db : DB) (env : String) (tbl : TableInfo) (desc' : dynamodb.TableDescription)
      (r : ValidationResult),
      db.describeTable (withEnvPrefixName env tbl.Title tbl.TableName) = .ok desc' →
      desc'.globalSecondaryIndexes = desc →
      (CreateTableInput tbl env).globalSecondaryIndexes = input →
      tbl.TTL = none →
      DiffTableDesc desc' (CreateTableInput tbl env) = "" →
      (compare db env tbl).1 = some r → r.CanMigrate = true) := by
  subst hsplit
  have hpw : (pre ++ gsi :: post).Pairwise (fun a b => a.indexName ≠ b.indexName) := by
    rw [List.Nodup, List.pairwise_map] at hnodup
    exact hnodup
  rw [List.pairwise_append] at hpw
  obtain ⟨_, hpwCons, hcross⟩ := hpw
  rw [List.pairwise_cons] at hpwCons
  obtain ⟨hgsiPost, _⟩ := hpwCons
  have hpreName : ∀ g ∈ pre, g.indexName ≠ gsi.indexName :=
    fun g hg => hcross g hg gsi (by simp)
  have hpostName : ∀ g ∈ post, g.indexName ≠ gsi.indexName :=
    fun g hg => (hgsiPost g hg).symm
  have hcond : ¬((desc.length = 0 ∧ (pre ++ gsi :: post).length = 0)) := by simp
  set s0 := pre.foldl (gsiStep desc) ⟨"", [], ""⟩ with hs0def
  have hs1 : gsiStep desc s0 gsi =
      { diff := "missing index: " ++ gsi.indexName
        gsiInput := s0.gsiInput ++
          [{ create := some ⟨gsi.indexName, gsi.keySchema, gsi.projection,
                             gsi.provisionedThroughput⟩ }]
        resultDiff := "missing index: " ++ gsi.indexName } :=
    gsiStep_missing hmiss s0
  set sfin := post.foldl (gsiStep desc) (gsiStep desc s0 gsi) with hsfin
  have hfold : (pre ++ gsi :: post).foldl (gsiStep desc) ⟨"", [], ""⟩ = sfin := by
    rw [List.foldl_append, List.foldl_cons]
  obtain ⟨t, ht⟩ := foldl_gsiStep_diff_extends post (gsiStep desc s0 gsi) hpost
  have hdiff : sfin.diff = ("missing index: " ++ gsi.indexName) ++ t := by
    rw [hsfin, ht, hs1]
  have hdiffne : sfin.diff ≠ "" := by
    rw [hdiff]
    exact str_append_ne_empty_left _
      (str_append_ne_empty_left _ (by decide))
  have hDiffGSI : DiffGSI desc (pre ++ gsi :: post) =
      { GSIInput := sfin.gsiInput
        Diff := if sfin.diff.length > 0 then sfin.diff else sfin.resultDiff
        CanMigrate := gsiCanMigrate desc (pre ++ gsi :: post) } := by
    rw [DiffGSI, if_neg hcond, hfold]
  have hpos : sfin.diff.length > 0 := (str_length_pos_iff _).2 hdiffne
  have hDiff : (DiffGSI desc (pre ++ gsi :: post)).Diff = sfin.diff := by
    rw [hDiffGSI]
    simp only [if_pos hpos]
  have hfilter : sfin.gsiInput.filter (fun u => actionForB u gsi.indexName) =
      [{ create := some ⟨gsi.indexName, gsi.keySchema, gsi.projection,
                         gsi.provisionedThroughput⟩ }] := by
    rw [hsfin, foldl_gsiStep_filter_other post _ hpostName, hs1]
    simp only [List.filter_append]
    rw [hs0def, foldl_gsiStep_filter_other pre _ hpreName]
    simp [actionForB]
  have hCMtrue : gsiCanMigrate desc (pre ++ gsi :: post) = true :=
    gsiCanMigrate_true_of_clean hclean
  refine ⟨?_, ?_, ?_, ?_⟩
  · exact ⟨"", t, by rw [hDiff, hdiff]; simp [String.empty_append, String.append_assoc]⟩
  · rw [hDiffGSI]
    exact hfilter
  · rw [hDiffGSI]
    exact hCMtrue
  · intro db env tbl desc' r hdesc hgsis hbuilt httl htd hr
    obtain ⟨r0, he, hcm⟩ := compareExisting_TTL_none db env tbl desc' httl
    have hr' : (compareExisting db env tbl desc').1 = some r := by
      unfold compare at hr
      rw [hdesc] at hr
      exact hr
    rw [he] at hr'
    simp only [Option.some.injEq] at hr'
    subst hr'
    rw [hcm, hgsis, hbuilt, hDiff, if_pos hpos, hDiffGSI]
    exact hCMtrue

/-- Witness for `C4_missing_index_amended`: desired index `A` (from config
index `idxInfoA`) with no live indexes at all; the containing table is
otherwise in sync and stays migratable. -/
theorem C4_missing_index_amended_witness :
    strContainsText (DiffGSI [] [gsiMissingA]).Diff
      ("missing index: " ++ gsiMissingA.indexName) ∧
    (DiffGSI [] [gsiMissingA]).GSIInput.filter
        (fun u => actionForB u gsiMissingA.indexName) =
      [{ create := some ⟨gsiMissingA.indexName, gsiMissingA.keySchema,
                         gsiMissingA.projection, gsiMissingA.provisionedThroughput⟩ }] ∧
    (DiffGSI [] [gsiMissingA]).CanMigrate = true ∧
    ((compare dbOrdersA "env" tblOrdersA).1.getD {}).CanMigrate = true := by
  have h := C4_missing_index_amended [] [gsiMissingA] [] [] gsiMissingA rfl rfl (by decide)
    (fun g hg => absurd hg (by simp))
    (fun g _ obj hl => by rw [show lookupGSI [] g.indexName = none from rfl] at hl; cases hl)
  exact ⟨h.1, h.2.1, h.2.2.1,
    h.2.2.2 dbOrdersA "env" tblOrdersA descOrdersNoGSI _ rfl rfl rfl rfl rfl rfl⟩

end tables
